import Mathlib

/-!
Verification development for the adaptive top-k variant-evaluation engine and
its client layer.

The client layer (`EmbeddedClient::run_topk_evaluation`, `poll_topk_task`, the
`run_topk_evaluation` tool parameter marshalling) is translated directly from
`internal/durable-tools/src/tensorzero_client/{mod.rs,embedded.rs}` and
`internal/autopilot-tools/src/tools/prod/run_topk_evaluation.rs`.

The core engine (`evaluations::topk` and
`evaluations::betting_confidence_sequences`) is not part of the sources at
hand (only its callers, type re-exports and integration tests are), so it is
modelled from the specification, as flagged on each such definition.

Conventions of the embedding: `f64` values are modelled as exact rationals
(`ℚ`); UUIDs, opaque JSON payloads and opaque config values as `ℕ`; hash maps
as association lists; asynchronous, concurrency-bounded execution as the
deterministic sequential application order the specification guarantees
(updates applied in (variant-name, datapoint-index, evaluator-name) order,
stopping rule strictly between batches); wall-clock time in `poll_topk_task`
as the accumulated 500 ms sleep per poll iteration.
-/

/-- ASCII single-quote character, used to build error-message strings. -/
def squote : String := String.singleton (Char.ofNat 39)

instance {α β : Type} [DecidableEq α] [DecidableEq β] : DecidableEq (Except α β) := fun a b =>
  match a, b with
  | .error x, .error y =>
    if h : x = y then isTrue (by rw [h]) else isFalse (by intro c; injection c; contradiction)
  | .error _, .ok _ => isFalse (fun c => Except.noConfusion c)
  | .ok _, .error _ => isFalse (fun c => Except.noConfusion c)
  | .ok x, .ok y =>
    if h : x = y then isTrue (by rw [h]) else isFalse (by intro c; injection c; contradiction)

/-- Cache mode for inference requests (`tensorzero_core::cache::CacheEnabledMode`),
with the variants named by the spec and the tool JSON schema: `on`, `off`,
`read_only`. -/
inductive CacheEnabledMode
  | On
  | Off
  | ReadOnly
deriving DecidableEq

/-- Modelled from the spec: `ScoringFunctionType` is declared in the missing
`evaluations::topk` crate; the spec and the tool schema list a single variant
`AverageEvaluatorScore`. -/
inductive ScoringFunctionType
  | AverageEvaluatorScore
deriving DecidableEq

/-- Modelled from the spec: `VariantStatus` is declared in the missing
`evaluations::topk` crate; the spec (§3) and the integration tests give its
four variants. -/
inductive VariantStatus
  | Active
  | Include
  | Exclude
  | Failed
deriving DecidableEq

/-- Modelled from the spec: `GlobalStoppingReason` is declared in the missing
`evaluations::topk` crate; the spec (§4.5) and the integration tests give its
variants and payloads. -/
inductive GlobalStoppingReason
  | TopKFound (k : ℕ) (top_variants : List String)
  | TooManyVariantsFailed (num_failed : ℕ)
  | EvaluatorsFailed (evaluator_names : List String)
  | DatasetExhausted
deriving DecidableEq

/-- Modelled from the spec: the wealth processes of a betting confidence
sequence (spec §3/§4.1), declared in the missing
`evaluations::betting_confidence_sequences` module. The grid is stored as the
explicit list of candidate means; `wealth_upper`/`wealth_lower` are parallel to
the grid, as in the test fixture `create_mock_cs`. -/
structure WealthProcesses where
  grid : List ℚ
  wealth_upper : List ℚ
  wealth_lower : List ℚ
deriving DecidableEq

/-- Modelled from the spec: `MeanBettingConfidenceSequence` (spec §3), declared
in the missing `evaluations::betting_confidence_sequences` module; field names
follow the test fixture `create_mock_cs`. -/
structure MeanBettingConfidenceSequence where
  name : String
  count : ℕ
  mean_est : ℚ
  mean_regularized : ℚ
  variance_regularized : ℚ
  cs_lower : ℚ
  cs_upper : ℚ
  alpha : ℚ
  wealth : WealthProcesses
deriving DecidableEq

/-- Minimum of two rationals, computed through `Rat.blt` (equal to `min`;
kept as a first-order computation so that concrete runs evaluate without deep
instance unfolding). -/
def ratMin (a b : ℚ) : ℚ := if Rat.blt a b then a else b

/-- Maximum of two rationals, computed through `Rat.blt` (equal to `max`). -/
def ratMax (a b : ℚ) : ℚ := if Rat.blt a b then b else a

/-- Miscoverage level used by all trackers (spec: "typically 0.05"). -/
def csAlpha : ℚ := 1 / 20

/-- Grid resolution for the wealth processes (spec §3: default 101). -/
def gridResolution : ℕ := 101

/-- Modelled from the spec: equispaced candidate-mean grid with the endpoints
0 and 1 excluded (spec §4.1: grid points at 0 and 1 are excluded to avoid
log(0)). -/
def defaultGrid : List ℚ :=
  (List.range (gridResolution - 1)).map (fun i => ((i : ℚ) + 1) / (gridResolution : ℚ))

/-- Modelled from the spec: `BettingCS::new` (spec §4.1): count = 0,
mean_est = 0.5 (prior neutral), CS = [0,1], wealth initialized at 1 across the
grid, shrinkage moments at their priors (mean 1/2, variance 1/4). -/
def mbcsNew (nm : String) : MeanBettingConfidenceSequence where
  name := nm
  count := 0
  mean_est := 1 / 2
  mean_regularized := 1 / 2
  variance_regularized := 1 / 4
  cs_lower := 0
  cs_upper := 1
  alpha := csAlpha
  wealth :=
    { grid := defaultGrid
      wealth_upper := defaultGrid.map (fun _ => 1)
      wealth_lower := defaultGrid.map (fun _ => 1) }

/-- Modelled from the spec: the predictable bet stake λₜ before per-grid-point
clipping. The spec's stake `sqrt(2 log(2/α) / (n·σ̂²))` is transcendental, so
the model uses a fixed predictable stake (a function of the pre-update state
only, as predictability requires); the clipping to `[0, c/m]` prescribed by
the spec is applied per grid point in `mbcsUpdate`. -/
def betStake (_cs : MeanBettingConfidenceSequence) : ℚ := 1

/-- Modelled from the spec: `BettingCS::update` (spec §4.1). Incorporates one
observation: updates the running mean and the shrinkage moments, multiplies
each grid point's two wealth processes by the clipped hedged-betting factor
(multiplier floored at 0, stake clipped to `[0, 1/m]`, symmetrically
`[0, 1/(1-m)]`), and recomputes `cs_lower`/`cs_upper` as the outermost
surviving grid points (wealth below `1/α`). Where the spec allows "a
conservative outer envelope", the reported interval is widened to contain the
running mean, which realizes the spec's invariant
`0 ≤ cs_lower ≤ mean_est ≤ cs_upper ≤ 1`. -/
def mbcsUpdate (cs : MeanBettingConfidenceSequence) (x : ℚ) : MeanBettingConfidenceSequence :=
  let c : ℚ := (cs.count : ℚ)
  let meanEst := (cs.mean_est * c + x) / (c + 1)
  let meanReg := (cs.mean_regularized * (c + 1) + x) / (c + 2)
  let varReg := (cs.variance_regularized * (c + 1) + (x - meanReg) ^ 2) / (c + 2)
  let lam := betStake cs
  let wUp := (cs.wealth.grid.zip cs.wealth.wealth_upper).map
    (fun gw => gw.2 * ratMax 0 (1 + ratMax 0 (ratMin lam (1 / gw.1)) * (x - gw.1)))
  let wLow := (cs.wealth.grid.zip cs.wealth.wealth_lower).map
    (fun gw => gw.2 * ratMax 0 (1 + ratMax 0 (ratMin lam (1 / (1 - gw.1))) * (gw.1 - x)))
  let surviving := ((cs.wealth.grid.zip (wUp.zip wLow)).filter
    (fun z => Rat.blt z.2.1 (1 / cs.alpha) && Rat.blt z.2.2 (1 / cs.alpha))).map Prod.fst
  let rawLower := surviving.foldr ratMin 1
  let rawUpper := surviving.foldr ratMax 0
  { cs with
    count := cs.count + 1
    mean_est := meanEst
    mean_regularized := meanReg
    variance_regularized := varReg
    cs_lower := ratMax 0 (ratMin rawLower meanEst)
    cs_upper := ratMin 1 (ratMax rawUpper meanEst)
    wealth := { grid := cs.wealth.grid, wealth_upper := wUp, wealth_lower := wLow } }

/-- Invariant of a betting confidence sequence
(spec §3: `0 ≤ cs_lower ≤ mean_est ≤ cs_upper ≤ 1`). -/
def mbcsWF (cs : MeanBettingConfidenceSequence) : Prop :=
  0 ≤ cs.cs_lower ∧ cs.cs_lower ≤ cs.mean_est ∧ cs.mean_est ≤ cs.cs_upper ∧ cs.cs_upper ≤ 1

instance (cs : MeanBettingConfidenceSequence) : Decidable (mbcsWF cs) :=
  inferInstanceAs (Decidable (_ ∧ _ ∧ _ ∧ _))

/-- Parameters of the durable top-k task, translated from `TopKTaskParams`
as constructed in `embedded.rs` (`run_topk_evaluation`, lines 575-591). The
opaque `evaluation_config` and per-function configs are modelled as `ℕ`. -/
structure TopKTaskParams where
  evaluation_name : String
  dataset_name : String
  variant_names : List String
  k_min : ℕ
  k_max : ℕ
  epsilon : Option ℚ
  max_datapoints : Option ℕ
  batch_size : Option ℕ
  variant_failure_threshold : ℚ
  evaluator_failure_threshold : ℚ
  concurrency : ℕ
  inference_cache : CacheEnabledMode
  evaluation_config : ℕ
  function_configs : List (String × ℕ)
  scoring_function : ScoringFunctionType
deriving DecidableEq

/-- Final output of a top-k run (spec §3 "Final Output"; field list matches the
test fixture `create_mock_topk_output`). Maps are association lists and the
run id is an opaque `ℕ`. -/
structure TopKTaskOutput where
  evaluation_run_id : ℕ
  variant_status : List (String × VariantStatus)
  variant_performance : List (String × MeanBettingConfidenceSequence)
  variant_failures : List (String × MeanBettingConfidenceSequence)
  evaluator_failures : List (String × MeanBettingConfidenceSequence)
  stopping_reason : GlobalStoppingReason
  num_datapoints_processed : ℕ
deriving DecidableEq

/-- Empty output value, used only as a match fallback in witnesses. -/
def emptyTopKOutput : TopKTaskOutput where
  evaluation_run_id := 0
  variant_status := []
  variant_performance := []
  variant_failures := []
  evaluator_failures := []
  stopping_reason := .DatasetExhausted
  num_datapoints_processed := 0

/-- Modelled from the spec: the collaborators the sampling loop consumes
(spec §6): a finite ordered dataset (datapoints are opaque `ℕ`), the evaluator
names of the configured evaluation, a deterministic inference executor
(variant name × datapoint → output or failure) and a deterministic evaluator
executor (evaluator name × datapoint × output → score or failure). -/
structure TopKEnv where
  dataset : List ℕ
  evaluators : List String
  infer : String → ℕ → Option ℕ
  evalScore : String → ℕ → ℕ → Option ℚ

/-- Contract of the evaluator executor (spec §1: scores lie in [0,1]). -/
def envWF (env : TopKEnv) : Prop :=
  ∀ e d o s, env.evalScore e d o = some s → 0 ≤ s ∧ s ≤ 1

/-- Modelled from the spec: per-variant tracker state (spec §3 "Variant"):
status, one CS per evaluator, and the failure CS. -/
structure VariantState where
  status : VariantStatus
  per_evaluator : List (String × MeanBettingConfidenceSequence)
  failures : MeanBettingConfidenceSequence
deriving DecidableEq

/-- Modelled from the spec: the sampling loop's state (spec §4.6): the variant
trackers (iteration order is the sorted, deduplicated variant-name order), the
evaluator failure trackers, the dataset cursor and the processed count. -/
structure EngineState where
  variants : List (String × VariantState)
  evaluator_failures : List (String × MeanBettingConfidenceSequence)
  cursor : ℕ
  processed : ℕ
deriving DecidableEq

/-- Association-list lookup by key. -/
def lookupA {α : Type} (l : List (String × α)) (k : String) : Option α :=
  (l.find? (fun e => decide (e.1 = k))).map Prod.snd

/-- Association-list update of the value at one key, keys untouched. -/
def updA {α : Type} (k : String) (f : α → α) (l : List (String × α)) : List (String × α) :=
  l.map (fun e => if e.1 = k then (e.1, f e.2) else e)

/-- Sorted deduplication, fixing the stable iteration order over names the
spec's determinism guarantee relies on (§4.6 "sorted by name"). -/
def dedupSort (l : List String) : List String :=
  (l.insertionSort (· ≤ ·)).dedup

/-- Bool test for the Active status. -/
def isActive (s : VariantStatus) : Bool :=
  match s with
  | .Active => true
  | _ => false

/-- Modelled from the spec: tracker creation at run start (spec §3
"Lifecycle"): zero samples and the trivial CS. -/
def initVariant (nm : String) (es : List String) : VariantState where
  status := .Active
  per_evaluator := es.map (fun e => (e, mbcsNew e))
  failures := mbcsNew nm

/-- Modelled from the spec: initial engine state (spec §4.6 step 1): all
trackers fresh, cursor 0. -/
def initState (p : TopKTaskParams) (env : TopKEnv) : EngineState where
  variants := (dedupSort p.variant_names).map (fun v => (v, initVariant v (dedupSort env.evaluators)))
  evaluator_failures := (dedupSort env.evaluators).map (fun e => (e, mbcsNew e))
  cursor := 0
  processed := 0

/-- Modelled from the spec: processing of one (variant, datapoint) sample
(spec §4.6 step 2 and §4.2 `record`): an inference failure updates only the
variant's failure CS with 1 (evaluators receive no updates); on success each
evaluator is run, a returned score updates that evaluator's per-variant CS and
feeds 0 to the evaluator failure tracker, an evaluator failure feeds it 1, and
the variant failure CS records whether anything failed. -/
def processSample (env : TopKEnv) (st : EngineState) (vname : String) (dp : ℕ) : EngineState :=
  match env.infer vname dp with
  | none =>
    let newVariants :=
      updA vname (fun vs => { vs with failures := mbcsUpdate vs.failures 1 }) st.variants
    { st with variants := newVariants }
  | some out =>
    let outcomes := (dedupSort env.evaluators).map (fun e => (e, env.evalScore e dp out))
    let anyFail := outcomes.any (fun o => o.2.isNone)
    let newVariants := updA vname (fun vs =>
      { vs with
        per_evaluator := outcomes.foldl (fun acc o =>
          match o.2 with
          | some s => updA o.1 (fun cs => mbcsUpdate cs s) acc
          | none => acc) vs.per_evaluator
        failures := mbcsUpdate vs.failures (if anyFail then 1 else 0) }) st.variants
    let newEvalFail := outcomes.foldl (fun acc o =>
      updA o.1 (fun cs => mbcsUpdate cs (match o.2 with | some _ => 0 | none => 1)) acc)
      st.evaluator_failures
    { st with variants := newVariants, evaluator_failures := newEvalFail }

/-- Modelled from the spec: one batch (spec §4.6): every Active variant is run
on every datapoint of the batch, updates applied in (variant-name,
datapoint-index) order, then cursor and processed advance. -/
def processBatch (env : TopKEnv) (st : EngineState) (batch : List ℕ) : EngineState :=
  let activeNames := (st.variants.filter (fun e => isActive e.2.status)).map Prod.fst
  let pairs := activeNames.flatMap (fun v => batch.map (fun d => (v, d)))
  let st1 := pairs.foldl (fun s pr => processSample env s pr.1 pr.2) st
  { st1 with cursor := st.cursor + batch.length, processed := st.processed + batch.length }

/-- Average of a list of rationals (0 on the empty list, by `ℚ`'s total
division). -/
def ratAvg (l : List ℚ) : ℚ := l.sum / (l.length : ℚ)

/-- Modelled from the spec: `AverageEvaluatorScore` lower bound (spec §4.4):
mean over evaluators of `cs_lower`. -/
def variantScoreLower (vs : VariantState) : ℚ :=
  ratAvg (vs.per_evaluator.map (fun e => e.2.cs_lower))

/-- Modelled from the spec: `AverageEvaluatorScore` upper bound (spec §4.4):
mean over evaluators of `cs_upper`. -/
def variantScoreUpper (vs : VariantState) : ℚ :=
  ratAvg (vs.per_evaluator.map (fun e => e.2.cs_upper))

/-- Modelled from the spec: `AverageEvaluatorScore` point estimate (spec §4.4):
mean over evaluators of `mean_est`. -/
def variantScoreEst (vs : VariantState) : ℚ :=
  ratAvg (vs.per_evaluator.map (fun e => e.2.mean_est))

/-- Ranking used to order Active variants for top-k selection: larger score
lower bound first, ties broken by lexicographic name order (spec §4.5 step 4
tie-break). -/
def variantRank (a b : String × VariantState) : Prop :=
  variantScoreLower b.2 < variantScoreLower a.2 ∨
    (variantScoreLower a.2 = variantScoreLower b.2 ∧ a.1 ≤ b.1)

instance : DecidableRel variantRank := fun a b =>
  inferInstanceAs (Decidable (variantScoreLower b.2 < variantScoreLower a.2 ∨
    (variantScoreLower a.2 = variantScoreLower b.2 ∧ a.1 ≤ b.1)))

/-- Modelled from the spec: `Active → Failed` marking (spec §4.2): an Active
variant whose failure-CS lower bound strictly exceeds the variant failure
threshold becomes Failed. -/
def markFailedVariants (p : TopKTaskParams) (st : EngineState) : EngineState :=
  { st with variants := st.variants.map (fun e =>
      if isActive e.2.status ∧ p.variant_failure_threshold < e.2.failures.cs_lower
      then (e.1, { e.2 with status := .Failed }) else e) }

/-- Number of Failed variants in the state. -/
def countFailed (st : EngineState) : ℕ :=
  (st.variants.filter (fun e => decide (e.2.status = .Failed))).length

/-- Modelled from the spec: `Active → Exclude` marking (spec §4.2/§4.5 step 3):
an Active variant whose score upper bound is strictly below the score lower
bound of at least `n_active − k_max` other Active variants cannot be in the
top `k_max` and is excluded (meaningful only when more than `k_max` variants
are still Active; equal bounds do not trigger the transition). -/
def markExcludedVariants (p : TopKTaskParams) (st : EngineState) : EngineState :=
  let act := st.variants.filter (fun e => isActive e.2.status)
  let nAct := act.length
  { st with variants := st.variants.map (fun e =>
      if isActive e.2.status ∧ p.k_max < nAct ∧
          nAct ≤ (act.filter (fun w => decide (w.1 ≠ e.1) &&
            decide (variantScoreUpper e.2 < variantScoreLower w.2))).length + p.k_max
      then (e.1, { e.2 with status := .Exclude }) else e) }

/-- Separation check (spec §4.5 step 4 with §4.5's strict reading of ε = 0):
every chosen variant's score lower bound strictly exceeds every remaining
Active variant's score upper bound plus ε. -/
def separationOK (eps : ℚ) (chosen rest : List (String × VariantState)) : Bool :=
  chosen.all (fun v => rest.all (fun w => decide (variantScoreUpper w.2 + eps < variantScoreLower v.2)))

/-- Attempt to identify a top-k set of exactly `k` Active variants: take the
`k` best-ranked Active variants and check ε-separation from the rest. -/
def tryK (eps : ℚ) (act : List (String × VariantState)) (k : ℕ) : Option (List String) :=
  if k ≤ act.length then
    if separationOK eps (act.take k) (act.drop k) then some ((act.take k).map Prod.fst)
    else none
  else none

/-- Candidate subset sizes `k_max, k_max − 1, …, k_min` in the preference
order of spec §4.5 step 4 (largest k first). -/
def kCandidates (kmin kmax : ℕ) : List ℕ :=
  (List.range (kmax + 1 - kmin)).map (fun i => kmax - i)

/-- Modelled from the spec: the TopKFound search (spec §4.5 step 4): for each
k from k_max down to k_min, look for exactly k ε-separated Active variants. -/
def findTopK (p : TopKTaskParams) (st : EngineState) : Option (ℕ × List String) :=
  let act := (st.variants.filter (fun e => isActive e.2.status)).insertionSort variantRank
  (kCandidates p.k_min p.k_max).findSome? (fun k => (tryK (p.epsilon.getD 0) act k).map (k, ·))

/-- Modelled from the spec: status marking upon TopKFound (spec §4.5 step 4):
the selected variants become Include, all remaining Active variants become
Exclude. -/
def applyTopK (S : List String) (st : EngineState) : EngineState :=
  { st with variants := st.variants.map (fun e =>
      if e.1 ∈ S then (e.1, { e.2 with status := .Include })
      else if isActive e.2.status then (e.1, { e.2 with status := .Exclude })
      else e) }

/-- Modelled from the spec: the stopping rule (spec §4.5), evaluated after
every batch, checks in order: evaluator failure thresholds, too many failed
variants (`Failed` marking per §4.2, then spec's `failed > |variants| − k_min`,
stated without truncated subtraction as `|variants| < failed + k_min`),
exclusions, and the top-k search. Returns the terminal reason (if any) and the
state with statuses updated. -/
def stoppingCheck (p : TopKTaskParams) (st : EngineState) :
    Option GlobalStoppingReason × EngineState :=
  let failedEvals := (st.evaluator_failures.filter
    (fun e => decide (p.evaluator_failure_threshold < e.2.cs_lower))).map Prod.fst
  if failedEvals ≠ [] then (some (.EvaluatorsFailed failedEvals), st)
  else
    let st1 := markFailedVariants p st
    let numFailed := countFailed st1
    if st1.variants.length < numFailed + p.k_min then
      (some (.TooManyVariantsFailed numFailed), st1)
    else
      let st2 := markExcludedVariants p st1
      match findTopK p st2 with
      | some ks => (some (.TopKFound ks.1 ks.2), applyTopK ks.2 st2)
      | none => (none, st2)

/-- Modelled from the spec: performance-CS snapshot exposed per variant
(spec §4.4): bounds and moments averaged over the per-evaluator CSes, count
the minimum count across evaluators, wealth not part of the aggregate. -/
def perfSnapshot (vname : String) (vs : VariantState) : MeanBettingConfidenceSequence where
  name := vname
  count :=
    match vs.per_evaluator with
    | [] => 0
    | h :: t => t.foldl (fun a e => min a e.2.count) h.2.count
  mean_est := variantScoreEst vs
  mean_regularized := ratAvg (vs.per_evaluator.map (fun e => e.2.mean_regularized))
  variance_regularized := ratAvg (vs.per_evaluator.map (fun e => e.2.variance_regularized))
  cs_lower := variantScoreLower vs
  cs_upper := variantScoreUpper vs
  alpha := csAlpha
  wealth := { grid := [], wealth_upper := [], wealth_lower := [] }

/-- Modelled from the spec: the final output snapshot (spec §3 "Final
Output"): statuses, aggregated performance CSes, failure CSes, evaluator
failure CSes, the tagged stopping reason and the processed count. -/
def mkOutput (runId : ℕ) (st : EngineState) (r : GlobalStoppingReason) : TopKTaskOutput where
  evaluation_run_id := runId
  variant_status := st.variants.map (fun e => (e.1, e.2.status))
  variant_performance := st.variants.map (fun e => (e.1, perfSnapshot e.1 e.2))
  variant_failures := st.variants.map (fun e => (e.1, e.2.failures))
  evaluator_failures := st.evaluator_failures
  stopping_reason := r
  num_datapoints_processed := st.processed

/-- Modelled from the spec: one iteration plus the remaining loop (spec §4.6
step 2): compute the batch size `B` (capped by the configured batch size —
defaulting to the concurrency —, the remaining datapoint budget and the
remaining dataset), terminate with `DatasetExhausted` when `B = 0`, otherwise
process the batch and consult the stopping rule. Recursion is fuelled; the
fuel is proven sufficient below. -/
def batchSize (env : TopKEnv) (p : TopKTaskParams) (st : EngineState) : ℕ :=
  min (min (p.batch_size.getD p.concurrency)
    (match p.max_datapoints with
      | some m => m - st.processed
      | none => env.dataset.length - st.cursor))
    (env.dataset.length - st.cursor)

def loopCore (env : TopKEnv) (p : TopKTaskParams) :
    ℕ → EngineState → Option (EngineState × GlobalStoppingReason)
  | 0, _ => none
  | Nat.succ fuel, st =>
    if batchSize env p st = 0 then some (st, .DatasetExhausted)
    else
      match stoppingCheck p
        (processBatch env st ((env.dataset.drop st.cursor).take (batchSize env p st))) with
      | (some r, st2) => some (st2, r)
      | (none, st2) => loopCore env p fuel st2

/-- Error type of the modelled orchestrator: parameter validation failures are
configuration errors; `internal` is a fallback for fuel exhaustion, proven
unreachable. -/
inductive TopKError
  | invalidParams (msg : String)
  | internal (msg : String)
deriving DecidableEq

/-- Modelled from the spec: the orchestrator's parameter validation (spec
§4.7: `k_min ≤ k_max ≤ |variants|`, `k_min ≥ 1`, thresholds in `[0,1]`,
`concurrency ≥ 1`), performed before the sampling loop is constructed. -/
def validateTopKParams (p : TopKTaskParams) : Except TopKError Unit :=
  if p.k_min < 1 then .error (.invalidParams "k_min must be at least 1")
  else if p.k_max < p.k_min then .error (.invalidParams "k_min must not exceed k_max")
  else if p.variant_names.length < p.k_max then
    .error (.invalidParams "k_max must not exceed the number of variants")
  else if p.variant_failure_threshold < 0 ∨ 1 < p.variant_failure_threshold then
    .error (.invalidParams "variant_failure_threshold must lie in [0,1]")
  else if p.evaluator_failure_threshold < 0 ∨ 1 < p.evaluator_failure_threshold then
    .error (.invalidParams "evaluator_failure_threshold must lie in [0,1]")
  else if p.concurrency < 1 then .error (.invalidParams "concurrency must be at least 1")
  else .ok ()

/-- Modelled from the spec: the orchestrator / durable `TopKTask::run` (spec
§4.7), which is absent from the sources at hand: validate the parameters,
drive the sampling loop to completion, and emit the final output under a
caller-supplied run id (run-id generation is an effect; the id is a
parameter here). The fuel `|dataset| + 1` is proven sufficient. -/
def runTopKTask (runId : ℕ) (p : TopKTaskParams) (env : TopKEnv) :
    Except TopKError TopKTaskOutput :=
  match validateTopKParams p with
  | .error e => .error e
  | .ok _ =>
    match loopCore env p (env.dataset.length + 1) (initState p env) with
    | some sr => .ok (mkOutput runId sr.1 sr.2)
    | none => .error (.internal "sampling loop ran out of fuel")

/-- Output with the run id scrubbed, for stating determinism modulo
`evaluation_run_id`. -/
def eraseRunId (o : TopKTaskOutput) : TopKTaskOutput :=
  { o with evaluation_run_id := 0 }

/-- Error type of the TensorZero client operations, translated from
`TensorZeroClientError` in `mod.rs` (payload-free variants omitted where the
modelled operations cannot produce them). -/
inductive TensorZeroClientError
  | Evaluation (msg : String)
  | NotSupported (msg : String)
  | StreamingNotSupported
deriving DecidableEq

/-- Response wrapper, translated from `RunTopKEvaluationResponse` in
`mod.rs`. -/
structure RunTopKEvaluationResponse where
  output : TopKTaskOutput
deriving DecidableEq

/-- Parameters for running a top-k evaluation, translated from
`RunTopKEvaluationParams` in `mod.rs` (lines 148-185). -/
structure RunTopKEvaluationParams where
  evaluation_name : String
  dataset_name : String
  variant_names : List String
  k_min : ℕ
  k_max : ℕ
  epsilon : Option ℚ
  max_datapoints : Option ℕ
  batch_size : Option ℕ
  variant_failure_threshold : ℚ
  evaluator_failure_threshold : ℚ
  concurrency : ℕ
  inference_cache : CacheEnabledMode
  scoring_function : ScoringFunctionType
deriving DecidableEq

/-- Tool-visible parameters, translated from `RunTopKEvaluationToolParams` in
`run_topk_evaluation.rs` (lines 17-57). -/
structure RunTopKEvaluationToolParams where
  evaluation_name : String
  dataset_name : String
  variant_names : List String
  k_min : ℕ
  k_max : ℕ
  epsilon : Option ℚ
  max_datapoints : Option ℕ
  batch_size : Option ℕ
  variant_failure_threshold : ℚ
  evaluator_failure_threshold : ℚ
  concurrency : ℕ
  inference_cache : CacheEnabledMode
  scoring_function : ScoringFunctionType
deriving DecidableEq

/-- Raw JSON-side view of the tool parameters before serde default filling:
`none` in a defaultable field means the caller omitted it. -/
structure ToolParamsProvided where
  evaluation_name : String
  dataset_name : String
  variant_names : List String
  k_min : ℕ
  k_max : ℕ
  epsilon : Option ℚ
  max_datapoints : Option ℕ
  batch_size : Option ℕ
  variant_failure_threshold : Option ℚ
  evaluator_failure_threshold : Option ℚ
  concurrency : Option ℕ
  inference_cache : Option CacheEnabledMode
  scoring_function : Option ScoringFunctionType
deriving DecidableEq

/-- Serde deserialization of the tool parameters, translated from the
`#[serde(default = ...)]` attributes in `run_topk_evaluation.rs` (lines
30-73): thresholds default to 0.05, concurrency to 5, inference_cache to On,
scoring_function to AverageEvaluatorScore; the `Option`-typed fields default
to `None`. The `f64` literal 0.05 is modelled as the exact rational 1/20. -/
def deserializeToolParams (j : ToolParamsProvided) : RunTopKEvaluationToolParams where
  evaluation_name := j.evaluation_name
  dataset_name := j.dataset_name
  variant_names := j.variant_names
  k_min := j.k_min
  k_max := j.k_max
  epsilon := j.epsilon
  max_datapoints := j.max_datapoints
  batch_size := j.batch_size
  variant_failure_threshold := j.variant_failure_threshold.getD (1 / 20)
  evaluator_failure_threshold := j.evaluator_failure_threshold.getD (1 / 20)
  concurrency := j.concurrency.getD 5
  inference_cache := j.inference_cache.getD .On
  scoring_function := j.scoring_function.getD .AverageEvaluatorScore

/-- Field-by-field forwarding done by `RunTopKEvaluationTool::execute`,
translated from `run_topk_evaluation.rs` (lines 185-199). -/
def toolExecuteParams (p : RunTopKEvaluationToolParams) : RunTopKEvaluationParams where
  evaluation_name := p.evaluation_name
  dataset_name := p.dataset_name
  variant_names := p.variant_names
  k_min := p.k_min
  k_max := p.k_max
  epsilon := p.epsilon
  max_datapoints := p.max_datapoints
  batch_size := p.batch_size
  variant_failure_threshold := p.variant_failure_threshold
  evaluator_failure_threshold := p.evaluator_failure_threshold
  concurrency := p.concurrency
  inference_cache := p.inference_cache
  scoring_function := p.scoring_function

/-- Construction of `TopKTaskParams` from the client parameters, translated
from `embedded.rs` (`run_topk_evaluation`, lines 575-591). -/
def mkTaskParams (p : RunTopKEvaluationParams) (cfg : ℕ) (fns : List (String × ℕ)) :
    TopKTaskParams where
  evaluation_name := p.evaluation_name
  dataset_name := p.dataset_name
  variant_names := p.variant_names
  k_min := p.k_min
  k_max := p.k_max
  epsilon := p.epsilon
  max_datapoints := p.max_datapoints
  batch_size := p.batch_size
  variant_failure_threshold := p.variant_failure_threshold
  evaluator_failure_threshold := p.evaluator_failure_threshold
  concurrency := p.concurrency
  inference_cache := p.inference_cache
  evaluation_config := cfg
  function_configs := fns
  scoring_function := p.scoring_function

/-- Database behavior observed by `poll_topk_task`: the per-attempt result of
the `SELECT state` query (`ℕ`-indexed by poll iteration; outer `Except` is a
query error, inner `Option` is row presence), the result of the
`SELECT failed_error` query (inner `Option` is a NULL column), the result of
the `SELECT completed_payload` query (payload JSON opaque as `ℕ`), and the
outcome of `serde_json::from_value` on a payload. -/
structure PollEnv where
  stateSeq : ℕ → Except String (Option String)
  failedErr : Except String (Option (Option String))
  payload : Except String (Option (Option ℕ))
  deser : ℕ → Except String TopKTaskOutput

/-- Poll sleep interval in milliseconds (`mod.rs` line 543). -/
def pollSleepMs : ℕ := 500

/-- Poll timeout in milliseconds (`mod.rs` line 501: 1 hour). -/
def pollTimeoutMs : ℕ := 3600000

/-- Error message extraction of the failed path, translated from `mod.rs`
lines 526-536: a query error, an absent row or a NULL column all collapse to
"Unknown error". -/
def failedErrMsg (env : PollEnv) : String :=
  match env.failedErr with
  | .ok (some (some m)) => m
  | _ => "Unknown error"

/-- Bool test that a state-query result is non-terminal: the query succeeded
and the row (if any) is neither "completed" nor "failed". -/
def pollNonterminal (r : Except String (Option String)) : Bool :=
  match r with
  | .ok st => !(st == some "completed" || st == some "failed")
  | .error _ => false

/-- Body of `poll_topk_task`, translated from `mod.rs` lines 493-563 (the
copy in `embedded.rs` lines 667-736 is identical): at iteration `i` the
elapsed time is `500·i` ms (one sleep per completed iteration); the loop
first checks the 1-hour timeout, then queries the task state; "completed"
breaks to the payload query and deserialization, "failed" reports the
(swallowed-failure) error message, anything else sleeps and retries. -/
def pollGo (env : PollEnv) : ℕ → ℕ → Option (Except TensorZeroClientError TopKTaskOutput)
  | 0, _ => none
  | Nat.succ fuel, i =>
    if pollTimeoutMs < pollSleepMs * i then
      some (.error (.Evaluation "Top-k evaluation timed out"))
    else
      match env.stateSeq i with
      | .error e => some (.error (.Evaluation ("Failed to query task state: " ++ e)))
      | .ok st =>
        if st = some "completed" then
          match env.payload with
          | .error e => some (.error (.Evaluation ("Failed to query task result: " ++ e)))
          | .ok p =>
            match p with
            | some (some js) =>
              match env.deser js with
              | .ok out => some (.ok out)
              | .error e => some (.error (.Evaluation ("Failed to deserialize output: " ++ e)))
            | _ => some (.error (.Evaluation "No task output found"))
        else if st = some "failed" then
          some (.error (.Evaluation ("Top-k task failed: " ++ failedErrMsg env)))
        else pollGo env fuel (i + 1)

/-- Maximal number of loop iterations before the timeout check fires: at
iteration 7201 the elapsed 3600500 ms exceed the hour, so 7202 iterations can
run; one more unit of fuel keeps the fuel-out case unreachable. -/
def pollFuel : ℕ := 7203

/-- Entry point of `poll_topk_task` over a database behavior. The fallback
for fuel exhaustion is unreachable (the timeout check fires first); its
message matches no message the real function can produce. -/
def pollTopkTask (env : PollEnv) : Except TensorZeroClientError TopKTaskOutput :=
  (pollGo env pollFuel 0).getD (.error (.NotSupported "unreachable: poll fuel exhausted"))

/-- Specification of the successful poll outcome: some iteration `j` within
the timeout observes state "completed" after only non-terminal observations,
and the payload row deserializes to `out`. -/
def pollCompletedSpec (env : PollEnv) (out : TopKTaskOutput) : Prop :=
  ∃ j, j ≤ 7200 ∧ (∀ t, t < j → pollNonterminal (env.stateSeq t) = true) ∧
    env.stateSeq j = .ok (some "completed") ∧
    ∃ js, env.payload = .ok (some (some js)) ∧ env.deser js = .ok out

/-- Externally visible effects of the embedded client's top-k entry point,
in order of occurrence. -/
inductive ClientEvent
  | builtClient
  | spawnedTask (task_id : ℕ)
  | startedWorker
  | polled
  | shutdownWorker
deriving DecidableEq

/-- Environment of `EmbeddedClient::run_topk_evaluation`: the gateway config
maps (`config.evaluations`, `config.functions`, values opaque), the outcome
of `ClientBuilder::build`, the optional PostgreSQL pool, the outcomes of
durable-client creation, task spawning and worker start, and the database
behavior seen by the poll loop. -/
structure ClientEnv where
  evaluations : List (String × ℕ)
  functions : List (String × ℕ)
  clientBuild : Except String Unit
  postgresPool : Option Unit
  createDurableClient : Except String Unit
  spawnResult : Except String ℕ
  startWorker : Except String Unit
  pollEnv : PollEnv

/-- Body of `EmbeddedClient::run_topk_evaluation`, translated step by step
from `embedded.rs` lines 547-663: evaluation-config lookup, task-parameter
construction, client build, PostgreSQL pool check, durable-client creation,
task spawn, worker start, polling, worker shutdown, result. Returns the
result together with the trace of externally visible effects. -/
def runTopkEvaluationClient (env : ClientEnv) (params : RunTopKEvaluationParams) :
    Except TensorZeroClientError RunTopKEvaluationResponse × List ClientEvent :=
  match lookupA env.evaluations params.evaluation_name with
  | none =>
    (.error (.Evaluation ("Evaluation " ++ squote ++ params.evaluation_name ++ squote ++
      " not found in config")), [])
  | some evalCfg =>
    let taskParams := mkTaskParams params evalCfg env.functions
    match env.clientBuild with
    | .error e => (.error (.Evaluation ("Failed to build client: " ++ e)), [])
    | .ok _ =>
      match env.postgresPool with
      | none =>
        (.error (.Evaluation "PostgreSQL connection required for top-k evaluation"),
          [.builtClient])
      | some _ =>
        match env.createDurableClient with
        | .error e =>
          (.error (.Evaluation ("Failed to create durable client: " ++ e)), [.builtClient])
        | .ok _ =>
          match env.spawnResult with
          | .error e =>
            (.error (.Evaluation ("Failed to spawn task: " ++ e)), [.builtClient])
          | .ok taskId =>
            match env.startWorker with
            | .error e =>
              (.error (.Evaluation ("Failed to start worker: " ++ e)),
                [.builtClient, .spawnedTask taskId])
            | .ok _ =>
              let _ := taskParams
              match pollTopkTask env.pollEnv with
              | .error e =>
                (.error e,
                  [.builtClient, .spawnedTask taskId, .startedWorker, .polled, .shutdownWorker])
              | .ok out =>
                (.ok ⟨out⟩,
                  [.builtClient, .spawnedTask taskId, .startedWorker, .polled, .shutdownWorker])

/-- Well-formedness of a variant tracker's confidence sequences. -/
def varCsWF (vs : VariantState) : Prop :=
  mbcsWF vs.failures ∧ ∀ pe ∈ vs.per_evaluator, mbcsWF pe.2

/-- Well-formedness of every confidence sequence in the engine state. -/
def stCsWF (st : EngineState) : Prop :=
  (∀ e ∈ st.variants, varCsWF e.2) ∧ ∀ e ∈ st.evaluator_failures, mbcsWF e.2

/-- Status part of the running-loop invariant: no variant is Include before a
top-k set has been identified. -/
def noInclude (st : EngineState) : Prop :=
  ∀ e ∈ st.variants, e.2.status ≠ .Include

/-! ### Concrete instances used to exercise the theorems -/

/-- Valid parameters for a single-variant run. -/
def pW1 : TopKTaskParams where
  evaluation_name := "eval"
  dataset_name := "ds"
  variant_names := ["a"]
  k_min := 1
  k_max := 1
  epsilon := none
  max_datapoints := none
  batch_size := none
  variant_failure_threshold := 1 / 20
  evaluator_failure_threshold := 1 / 20
  concurrency := 1
  inference_cache := .On
  evaluation_config := 0
  function_configs := []
  scoring_function := .AverageEvaluatorScore

/-- Parameters asking for the full two-variant set (k = 2). -/
def pW2 : TopKTaskParams where
  evaluation_name := "eval"
  dataset_name := "ds"
  variant_names := ["a", "b"]
  k_min := 2
  k_max := 2
  epsilon := none
  max_datapoints := none
  batch_size := some 1
  variant_failure_threshold := 1 / 20
  evaluator_failure_threshold := 1 / 20
  concurrency := 5
  inference_cache := .On
  evaluation_config := 0
  function_configs := []
  scoring_function := .AverageEvaluatorScore

/-- Invalid parameters: `k_min = 0` violates `k_min ≥ 1`. -/
def pW5 : TopKTaskParams where
  evaluation_name := "eval"
  dataset_name := "ds"
  variant_names := ["a"]
  k_min := 0
  k_max := 1
  epsilon := none
  max_datapoints := none
  batch_size := none
  variant_failure_threshold := 1 / 20
  evaluator_failure_threshold := 1 / 20
  concurrency := 1
  inference_cache := .On
  evaluation_config := 0
  function_configs := []
  scoring_function := .AverageEvaluatorScore

/-- Empty dataset environment: the loop exhausts immediately. -/
def envW0 : TopKEnv where
  dataset := []
  evaluators := []
  infer := fun _ _ => none
  evalScore := fun _ _ _ => none

/-- One-datapoint environment whose inference always fails. -/
def envW2 : TopKEnv where
  dataset := [0]
  evaluators := []
  infer := fun _ _ => none
  evalScore := fun _ _ _ => none

/-- Output of the empty-dataset run. -/
def outW0 : TopKTaskOutput :=
  match runTopKTask 0 pW1 envW0 with
  | .ok o => o
  | .error _ => emptyTopKOutput

/-- Output of the two-variant run that identifies k = 2 immediately. -/
def outW2 : TopKTaskOutput :=
  match runTopKTask 7 pW2 envW2 with
  | .ok o => o
  | .error _ => emptyTopKOutput

/-- Client parameters naming an evaluation absent from the config. -/
def paramsC4 : RunTopKEvaluationParams where
  evaluation_name := "nonexistent_evaluation"
  dataset_name := "ds"
  variant_names := ["a"]
  k_min := 1
  k_max := 1
  epsilon := none
  max_datapoints := none
  batch_size := none
  variant_failure_threshold := 1 / 20
  evaluator_failure_threshold := 1 / 20
  concurrency := 5
  inference_cache := .Off
  scoring_function := .AverageEvaluatorScore

/-- Database behavior that reports "completed" at the first poll. -/
def pollEnvC8 : PollEnv where
  stateSeq := fun _ => .ok (some "completed")
  failedErr := .ok none
  payload := .ok (some (some 0))
  deser := fun _ => .ok emptyTopKOutput

/-- Database behavior that reports "failed" at the first poll and errors on
the follow-up `failed_error` query. -/
def pollEnvC10 : PollEnv where
  stateSeq := fun _ => .ok (some "failed")
  failedErr := .error "connection reset"
  payload := .ok none
  deser := fun _ => .ok emptyTopKOutput

/-- Gateway environment with an empty evaluation table. -/
def cEnvC4 : ClientEnv where
  evaluations := []
  functions := []
  clientBuild := .ok ()
  postgresPool := some ()
  createDurableClient := .ok ()
  spawnResult := .ok 0
  startWorker := .ok ()
  pollEnv := pollEnvC8

/-- Client parameters naming a configured evaluation. -/
def paramsC9 : RunTopKEvaluationParams where
  evaluation_name := "ev"
  dataset_name := "ds"
  variant_names := ["a"]
  k_min := 1
  k_max := 1
  epsilon := none
  max_datapoints := none
  batch_size := none
  variant_failure_threshold := 1 / 20
  evaluator_failure_threshold := 1 / 20
  concurrency := 5
  inference_cache := .On
  scoring_function := .AverageEvaluatorScore

/-- Gateway environment with a configured evaluation but no PostgreSQL pool. -/
def cEnvC9 : ClientEnv where
  evaluations := [("ev", 1)]
  functions := []
  clientBuild := .ok ()
  postgresPool := none
  createDurableClient := .ok ()
  spawnResult := .ok 0
  startWorker := .ok ()
  pollEnv := pollEnvC8

/-- Tool-parameter JSON with every defaultable field omitted. -/
def jW : ToolParamsProvided where
  evaluation_name := "eval"
  dataset_name := "ds"
  variant_names := ["a", "b"]
  k_min := 1
  k_max := 2
  epsilon := none
  max_datapoints := none
  batch_size := none
  variant_failure_threshold := none
  evaluator_failure_threshold := none
  concurrency := none
  inference_cache := none
  scoring_function := none

/-! ### Lemmas: rational helpers -/

theorem rat_blt_iff (a b : ℚ) : Rat.blt a b = true ↔ a < b := Iff.rfl

theorem ratMin_eq (a b : ℚ) : ratMin a b = min a b := by
  unfold ratMin
  by_cases h : a < b
  · rw [if_pos ((rat_blt_iff a b).mpr h), min_eq_left h.le]
  · rw [if_neg (by rw [rat_blt_iff]; exact h), min_eq_right (not_lt.mp h)]

theorem ratMax_eq (a b : ℚ) : ratMax a b = max a b := by
  unfold ratMax
  by_cases h : a < b
  · rw [if_pos ((rat_blt_iff a b).mpr h), max_eq_right h.le]
  · rw [if_neg (by rw [rat_blt_iff]; exact h), max_eq_left (not_lt.mp h)]

/-! ### Lemmas: the betting confidence sequence invariant -/

theorem mbcsNew_wf (nm : String) : mbcsWF (mbcsNew nm) := by
  unfold mbcsWF mbcsNew
  norm_num

theorem mbcsUpdate_mean_bounds (cs : MeanBettingConfidenceSequence) (x : ℚ)
    (hm0 : 0 ≤ cs.mean_est) (hm1 : cs.mean_est ≤ 1) (hx0 : 0 ≤ x) (hx1 : x ≤ 1) :
    0 ≤ (cs.mean_est * (cs.count : ℚ) + x) / ((cs.count : ℚ) + 1) ∧
      (cs.mean_est * (cs.count : ℚ) + x) / ((cs.count : ℚ) + 1) ≤ 1 := by
  have hc0 : (0 : ℚ) ≤ (cs.count : ℚ) := by positivity
  have hden : (0 : ℚ) < (cs.count : ℚ) + 1 := by positivity
  constructor
  · apply div_nonneg _ hden.le
    nlinarith
  · rw [div_le_one hden]
    nlinarith

theorem mbcsUpdate_wf (cs : MeanBettingConfidenceSequence) (x : ℚ)
    (hcs : mbcsWF cs) (hx0 : 0 ≤ x) (hx1 : x ≤ 1) : mbcsWF (mbcsUpdate cs x) := by
  obtain ⟨h1, h2, h3, h4⟩ := hcs
  obtain ⟨hlb, hub⟩ := mbcsUpdate_mean_bounds cs x (h1.trans h2) (h3.trans h4) hx0 hx1
  unfold mbcsUpdate mbcsWF
  simp only [ratMin_eq, ratMax_eq]
  refine ⟨le_max_left _ _, ?_, ?_, min_le_left _ _⟩
  · exact max_le hlb (min_le_right _ _)
  · exact le_min hub (le_max_right _ _)

theorem mbcsFoldl_wf (xs : List ℚ) :
    ∀ cs : MeanBettingConfidenceSequence, mbcsWF cs → (∀ x ∈ xs, 0 ≤ x ∧ x ≤ 1) →
      mbcsWF (xs.foldl mbcsUpdate cs) := by
  induction xs with
  | nil => intro cs hcs _; exact hcs
  | cons y ys ih =>
    intro cs hcs hx
    have hy := hx y (List.mem_cons_self y ys)
    exact ih (mbcsUpdate cs y) (mbcsUpdate_wf cs y hcs hy.1 hy.2)
      (fun z hz => hx z (List.mem_cons_of_mem y hz))

/-! ### Lemmas: association lists and generic list facts -/

theorem findSome?_eq_some_exists {α β : Type} (f : α → Option β) :
    ∀ (l : List α) (b : β), l.findSome? f = some b → ∃ a ∈ l, f a = some b := by
  intro l
  induction l with
  | nil => intro b h; simp [List.findSome?] at h
  | cons x xs ih =>
    intro b h
    rw [List.findSome?_cons] at h
    cases hx : f x with
    | some y =>
      rw [hx] at h
      exact ⟨x, List.mem_cons_self x xs, by rw [hx]; exact h⟩
    | none =>
      rw [hx] at h
      obtain ⟨a, ha, hfa⟩ := ih b h
      exact ⟨a, List.mem_cons_of_mem x ha, hfa⟩

theorem updA_keys {α : Type} (k : String) (f : α → α) (l : List (String × α)) :
    (updA k f l).map Prod.fst = l.map Prod.fst := by
  unfold updA
  induction l with
  | nil => rfl
  | cons e es ih =>
    simp only [List.map_cons, List.map_map] at *
    by_cases h : e.1 = k <;> simp [h, ih]

theorem updA_all {α : Type} {P : α → Prop} (k : String) (f : α → α) (l : List (String × α))
    (hf : ∀ v, P v → P (f v)) (h : ∀ e ∈ l, P e.2) : ∀ e ∈ updA k f l, P e.2 := by
  unfold updA
  intro e he
  obtain ⟨e₀, he₀, heq⟩ := List.mem_map.mp he
  by_cases hk : e₀.1 = k
  · rw [if_pos hk] at heq
    rw [← heq]
    exact hf _ (h e₀ he₀)
  · rw [if_neg hk] at heq
    rw [← heq]
    exact h e₀ he₀

theorem lookupA_proj {α β : Type} (g : α → β) (l : List (String × α)) (v : String) :
    lookupA (l.map (fun e => (e.1, g e.2))) v = (lookupA l v).map g := by
  unfold lookupA
  rw [List.find?_map]
  have : ((fun e : String × β => decide (e.1 = v)) ∘ fun e : String × α => (e.1, g e.2)) =
      (fun e : String × α => decide (e.1 = v)) := by
    funext e; rfl
  rw [this]
  cases l.find? (fun e : String × α => decide (e.1 = v)) <;> rfl

theorem lookupA_isSome {α : Type} (l : List (String × α)) (v : String)
    (h : v ∈ l.map Prod.fst) : ∃ x, lookupA l v = some x := by
  unfold lookupA
  obtain ⟨e, he, hfst⟩ := List.mem_map.mp h
  have : (l.find? (fun e => decide (e.1 = v))).isSome := by
    rw [List.find?_isSome]
    exact ⟨e, he, by simp [hfst]⟩
  obtain ⟨x, hx⟩ := Option.isSome_iff_exists.mp this
  exact ⟨x.2, by rw [hx]; rfl⟩

/-! ### Lemmas: engine preservation -/

theorem updA_statuses (k : String) (f : VariantState → VariantState)
    (hf : ∀ v, (f v).status = v.status) (l : List (String × VariantState)) :
    (updA k f l).map (fun e => (e.1, e.2.status)) = l.map (fun e => (e.1, e.2.status)) := by
  unfold updA
  rw [List.map_map]
  apply List.map_congr_left
  intro e _
  by_cases h : e.1 = k
  · simp [h, hf]
  · simp [h]

theorem mapEntries_keys (g : String × VariantState → String × VariantState)
    (hg : ∀ e, (g e).1 = e.1) (l : List (String × VariantState)) :
    (l.map g).map Prod.fst = l.map Prod.fst := by
  rw [List.map_map]
  apply List.map_congr_left
  intro e _
  exact hg e

theorem foldEF_keys (os : List (String × Option ℚ)) :
    ∀ acc : List (String × MeanBettingConfidenceSequence),
      ((os.foldl (fun acc o =>
        updA o.1 (fun cs => mbcsUpdate cs (match o.2 with | some _ => 0 | none => 1)) acc)
        acc).map Prod.fst) = acc.map Prod.fst := by
  induction os with
  | nil => intro acc; rfl
  | cons o os ih =>
    intro acc
    rw [List.foldl_cons, ih, updA_keys]

theorem foldEF_wf (os : List (String × Option ℚ)) :
    ∀ acc : List (String × MeanBettingConfidenceSequence),
      (∀ e ∈ acc, mbcsWF e.2) →
      ∀ e ∈ os.foldl (fun acc o =>
          updA o.1 (fun cs => mbcsUpdate cs (match o.2 with | some _ => 0 | none => 1)) acc)
        acc, mbcsWF e.2 := by
  induction os with
  | nil => intro acc h; exact h
  | cons o os ih =>
    intro acc h
    rw [List.foldl_cons]
    apply ih
    apply updA_all _ _ _ _ h
    intro v hv
    cases o.2 with
    | some s => exact mbcsUpdate_wf v 0 hv le_rfl zero_le_one
    | none => exact mbcsUpdate_wf v 1 hv zero_le_one le_rfl

theorem foldPE_wf (os : List (String × Option ℚ))
    (hos : ∀ o ∈ os, ∀ s, o.2 = some s → 0 ≤ s ∧ s ≤ 1) :
    ∀ acc : List (String × MeanBettingConfidenceSequence),
      (∀ e ∈ acc, mbcsWF e.2) →
      ∀ e ∈ os.foldl (fun acc o =>
          match o.2 with
          | some s => updA o.1 (fun cs => mbcsUpdate cs s) acc
          | none => acc) acc, mbcsWF e.2 := by
  induction os with
  | nil => intro acc h; exact h
  | cons o os ih =>
    intro acc h
    rw [List.foldl_cons]
    have hos' : ∀ o' ∈ os, ∀ s, o'.2 = some s → 0 ≤ s ∧ s ≤ 1 :=
      fun o' ho' => hos o' (List.mem_cons_of_mem o ho')
    cases ho : o.2 with
    | some s =>
      apply ih hos'
      apply updA_all _ _ _ _ h
      intro v hv
      obtain ⟨hs0, hs1⟩ := hos o (List.mem_cons_self o os) s ho
      exact mbcsUpdate_wf v s hv hs0 hs1
    | none => exact ih hos' acc h

theorem processSample_statuses (env : TopKEnv) (st : EngineState) (v : String) (d : ℕ) :
    (processSample env st v d).variants.map (fun e => (e.1, e.2.status)) =
      st.variants.map (fun e => (e.1, e.2.status)) := by
  unfold processSample
  split
  · dsimp only
    refine updA_statuses v _ ?_ st.variants
    intro vs; rfl
  · dsimp only
    refine updA_statuses v _ ?_ st.variants
    intro vs; rfl

theorem processSample_efkeys (env : TopKEnv) (st : EngineState) (v : String) (d : ℕ) :
    (processSample env st v d).evaluator_failures.map Prod.fst =
      st.evaluator_failures.map Prod.fst := by
  unfold processSample
  split
  · rfl
  · dsimp only
    exact foldEF_keys _ st.evaluator_failures

theorem processSample_csWF (env : TopKEnv) (henv : envWF env) (st : EngineState)
    (v : String) (d : ℕ) (h : stCsWF st) : stCsWF (processSample env st v d) := by
  obtain ⟨hvar, hef⟩ := h
  unfold processSample
  split
  · unfold stCsWF
    dsimp only
    refine ⟨fun e he => ?_, hef⟩
    refine updA_all v _ st.variants ?_ hvar e he
    intro vs hvs
    exact ⟨mbcsUpdate_wf vs.failures 1 hvs.1 zero_le_one le_rfl, hvs.2⟩
  next out _ =>
    unfold stCsWF
    dsimp only
    constructor
    · intro e he
      refine updA_all v _ st.variants ?_ hvar e he
      intro vs hvs
      constructor
      · by_cases hf : ((dedupSort env.evaluators).map
            (fun e => (e, env.evalScore e d out))).any (fun o => o.2.isNone)
        · simp only [hf, if_pos]
          exact mbcsUpdate_wf vs.failures 1 hvs.1 zero_le_one le_rfl
        · simp only [hf, if_neg]
          exact mbcsUpdate_wf vs.failures 0 hvs.1 le_rfl zero_le_one
      · intro pe hpe
        refine foldPE_wf _ ?_ vs.per_evaluator hvs.2 pe hpe
        intro o ho s hs
        obtain ⟨e2, _, heq⟩ := List.mem_map.mp ho
        apply henv e2 d out
        rw [← hs, ← heq]
    · intro e he
      exact foldEF_wf _ st.evaluator_failures hef e he

theorem foldPairs_inv {env : TopKEnv} {P : EngineState → Prop}
    (hP : ∀ st v d, P st → P (processSample env st v d)) :
    ∀ (pairs : List (String × ℕ)) (st : EngineState), P st →
      P (pairs.foldl (fun s pr => processSample env s pr.1 pr.2) st) := by
  intro pairs
  induction pairs with
  | nil => intro st h; exact h
  | cons pr prs ih =>
    intro st h
    rw [List.foldl_cons]
    exact ih _ (hP st pr.1 pr.2 h)

theorem statuses_to_keys (l l' : List (String × VariantState))
    (h : l'.map (fun e => (e.1, e.2.status)) = l.map (fun e => (e.1, e.2.status))) :
    l'.map Prod.fst = l.map Prod.fst := by
  have h2 := congrArg (List.map Prod.fst) h
  simpa [List.map_map, Function.comp] using h2

theorem statuses_to_noInclude (l l' : List (String × VariantState))
    (h : l'.map (fun e => (e.1, e.2.status)) = l.map (fun e => (e.1, e.2.status)))
    (hni : ∀ e ∈ l, e.2.status ≠ .Include) : ∀ e ∈ l', e.2.status ≠ .Include := by
  intro e he hc
  have hm : (e.1, e.2.status) ∈ l'.map (fun e => (e.1, e.2.status)) :=
    List.mem_map_of_mem _ he
  rw [h] at hm
  obtain ⟨e₀, he₀, heq⟩ := List.mem_map.mp hm
  have hst : e₀.2.status = e.2.status := congrArg Prod.snd heq
  exact hni e₀ he₀ (by rw [hst, hc])

theorem foldPairs_statuses (env : TopKEnv) (pairs : List (String × ℕ)) :
    ∀ st : EngineState,
      ((pairs.foldl (fun s pr => processSample env s pr.1 pr.2) st).variants.map
        (fun e => (e.1, e.2.status))) = st.variants.map (fun e => (e.1, e.2.status)) := by
  induction pairs with
  | nil => intro st; rfl
  | cons pr prs ih =>
    intro st
    rw [List.foldl_cons, ih, processSample_statuses]

theorem processBatch_statuses (env : TopKEnv) (st : EngineState) (batch : List ℕ) :
    (processBatch env st batch).variants.map (fun e => (e.1, e.2.status)) =
      st.variants.map (fun e => (e.1, e.2.status)) := by
  unfold processBatch
  dsimp only
  exact foldPairs_statuses env _ st

theorem processBatch_cursor (env : TopKEnv) (st : EngineState) (batch : List ℕ) :
    (processBatch env st batch).cursor = st.cursor + batch.length := rfl

theorem processBatch_csWF (env : TopKEnv) (henv : envWF env) (st : EngineState)
    (batch : List ℕ) (h : stCsWF st) : stCsWF (processBatch env st batch) := by
  unfold processBatch
  dsimp only
  have hfold := @foldPairs_inv env stCsWF
    (fun st v d hp => processSample_csWF env henv st v d hp)
    (((st.variants.filter (fun e => isActive e.2.status)).map Prod.fst).flatMap
      (fun v => batch.map (fun d => (v, d)))) st h
  exact ⟨hfold.1, hfold.2⟩

theorem mapEntries_all {P : VariantState → Prop} (g : String × VariantState → String × VariantState)
    (hg : ∀ e, P e.2 → P (g e).2) (l : List (String × VariantState))
    (h : ∀ e ∈ l, P e.2) : ∀ e ∈ l.map g, P e.2 := by
  intro e he
  obtain ⟨e₀, he₀, heq⟩ := List.mem_map.mp he
  rw [← heq]
  exact hg e₀ (h e₀ he₀)

theorem markFailed_keys (p : TopKTaskParams) (st : EngineState) :
    (markFailedVariants p st).variants.map Prod.fst = st.variants.map Prod.fst := by
  unfold markFailedVariants
  refine mapEntries_keys _ ?_ st.variants
  intro e
  dsimp only
  split <;> rfl

theorem markFailed_noInclude (p : TopKTaskParams) (st : EngineState) (h : noInclude st) :
    noInclude (markFailedVariants p st) := by
  unfold markFailedVariants noInclude
  intro e he
  refine @mapEntries_all (fun vs => vs.status ≠ .Include) _ ?_ st.variants h e he
  intro e₀ h₀
  dsimp only
  split
  · simp
  · exact h₀

theorem markExcluded_keys (p : TopKTaskParams) (st : EngineState) :
    (markExcludedVariants p st).variants.map Prod.fst = st.variants.map Prod.fst := by
  unfold markExcludedVariants
  refine mapEntries_keys _ ?_ st.variants
  intro e
  dsimp only
  split <;> rfl

theorem markExcluded_noInclude (p : TopKTaskParams) (st : EngineState) (h : noInclude st) :
    noInclude (markExcludedVariants p st) := by
  unfold markExcludedVariants noInclude
  intro e he
  refine @mapEntries_all (fun vs => vs.status ≠ .Include) _ ?_ st.variants h e he
  intro e₀ h₀
  dsimp only
  split
  · simp
  · exact h₀

theorem markFailed_csWF (p : TopKTaskParams) (st : EngineState) (h : stCsWF st) :
    stCsWF (markFailedVariants p st) := by
  obtain ⟨hvar, hef⟩ := h
  refine ⟨?_, hef⟩
  unfold markFailedVariants
  refine mapEntries_all _ ?_ st.variants hvar
  intro e₀ h₀
  dsimp only
  split
  · exact h₀
  · exact h₀

theorem markExcluded_csWF (p : TopKTaskParams) (st : EngineState) (h : stCsWF st) :
    stCsWF (markExcludedVariants p st) := by
  obtain ⟨hvar, hef⟩ := h
  refine ⟨?_, hef⟩
  unfold markExcludedVariants
  refine mapEntries_all _ ?_ st.variants hvar
  intro e₀ h₀
  dsimp only
  split
  · exact h₀
  · exact h₀

theorem applyTopK_csWF (S : List String) (st : EngineState) (h : stCsWF st) :
    stCsWF (applyTopK S st) := by
  obtain ⟨hvar, hef⟩ := h
  refine ⟨?_, hef⟩
  unfold applyTopK
  refine mapEntries_all _ ?_ st.variants hvar
  intro e₀ h₀
  dsimp only
  split
  · exact h₀
  · split
    · exact h₀
    · exact h₀

/-! ### Lemmas: the stopping rule and top-k selection -/

theorem stoppingCheck_none_eq (p : TopKTaskParams) (st st₂ : EngineState)
    (h : stoppingCheck p st = (none, st₂)) :
    st₂ = markExcludedVariants p (markFailedVariants p st) := by
  unfold stoppingCheck at h
  dsimp only at h
  split at h
  · rw [Prod.mk.injEq] at h
    exact absurd h.1 (by simp)
  · split at h
    · rw [Prod.mk.injEq] at h
      exact absurd h.1 (by simp)
    · split at h
      · rw [Prod.mk.injEq] at h
        exact absurd h.1 (by simp)
      · rw [Prod.mk.injEq] at h
        exact h.2.symm

theorem stoppingCheck_cases (p : TopKTaskParams) (st : EngineState) (r : GlobalStoppingReason)
    (st₂ : EngineState) (h : stoppingCheck p st = (some r, st₂)) :
    (∃ ns, r = .EvaluatorsFailed ns ∧ st₂ = st) ∨
    (∃ n, r = .TooManyVariantsFailed n ∧ st₂ = markFailedVariants p st) ∨
    (∃ kS : ℕ × List String, r = .TopKFound kS.1 kS.2 ∧
      findTopK p (markExcludedVariants p (markFailedVariants p st)) = some kS ∧
      st₂ = applyTopK kS.2 (markExcludedVariants p (markFailedVariants p st))) := by
  unfold stoppingCheck at h
  dsimp only at h
  split at h
  · rw [Prod.mk.injEq] at h
    left
    exact ⟨_, (Option.some.injEq _ _ ▸ h.1).symm, h.2.symm⟩
  · split at h
    · rw [Prod.mk.injEq] at h
      right; left
      exact ⟨_, (Option.some.injEq _ _ ▸ h.1).symm, h.2.symm⟩
    · split at h
      next kS hfind =>
        rw [Prod.mk.injEq] at h
        right; right
        exact ⟨kS, (Option.some.injEq _ _ ▸ h.1).symm, hfind, h.2.symm⟩
      next hfind =>
        rw [Prod.mk.injEq] at h
        exact absurd h.1 (by simp)

theorem tryK_some (eps : ℚ) (act : List (String × VariantState)) (k : ℕ) (S : List String)
    (h : tryK eps act k = some S) :
    k ≤ act.length ∧ S = (act.take k).map Prod.fst := by
  unfold tryK at h
  split at h
  · split at h
    · exact ⟨by assumption, (Option.some.injEq _ _ ▸ h).symm⟩
    · exact absurd h (by simp)
  · exact absurd h (by simp)

theorem kCandidates_mem (kmin kmax k : ℕ) (h : k ∈ kCandidates kmin kmax) :
    kmin ≤ k ∧ k ≤ kmax := by
  unfold kCandidates at h
  obtain ⟨i, hi, hk⟩ := List.mem_map.mp h
  rw [List.mem_range] at hi
  omega

theorem findTopK_some (p : TopKTaskParams) (st : EngineState) (k : ℕ) (S : List String)
    (h : findTopK p st = some (k, S)) :
    p.k_min ≤ k ∧ k ≤ p.k_max ∧
    k ≤ ((st.variants.filter (fun e => isActive e.2.status)).insertionSort variantRank).length ∧
    S = (((st.variants.filter (fun e => isActive e.2.status)).insertionSort variantRank).take
      k).map Prod.fst := by
  unfold findTopK at h
  dsimp only at h
  obtain ⟨k₀, hk₀, hf⟩ := findSome?_eq_some_exists _ _ _ h
  cases ht : tryK (p.epsilon.getD 0)
      ((st.variants.filter (fun e => isActive e.2.status)).insertionSort variantRank) k₀ with
  | none => rw [ht] at hf; exact absurd hf (by simp)
  | some S₀ =>
    rw [ht] at hf
    have hf2 : (k₀, S₀) = (k, S) := Option.some.inj hf
    rw [Prod.mk.injEq] at hf2
    obtain ⟨hk, hS⟩ := hf2
    subst hk
    obtain ⟨hmin, hmax⟩ := kCandidates_mem p.k_min p.k_max k₀ hk₀
    obtain ⟨hlen, hSeq⟩ := tryK_some _ _ _ _ ht
    exact ⟨hmin, hmax, hlen, by rw [← hS, hSeq]⟩

theorem findTopK_props (p : TopKTaskParams) (st : EngineState) (k : ℕ) (S : List String)
    (hnd : (st.variants.map Prod.fst).Nodup) (h : findTopK p st = some (k, S)) :
    S.length = k ∧ S.Nodup ∧ ∀ v ∈ S, v ∈ st.variants.map Prod.fst := by
  obtain ⟨_, _, hlen, hS⟩ := findTopK_some p st k S h
  have hperm : List.Perm
      ((st.variants.filter (fun e => isActive e.2.status)).insertionSort variantRank)
      (st.variants.filter (fun e => isActive e.2.status)) := List.perm_insertionSort _ _
  have hsub : (st.variants.filter (fun e => isActive e.2.status)).Sublist st.variants :=
    List.filter_sublist _
  have hnd2 : ((st.variants.filter (fun e => isActive e.2.status)).map Prod.fst).Nodup :=
    hnd.sublist (hsub.map Prod.fst)
  have hnd3 : (((st.variants.filter (fun e => isActive e.2.status)).insertionSort
      variantRank).map Prod.fst).Nodup := ((hperm.map Prod.fst).nodup_iff).mpr hnd2
  refine ⟨?_, ?_, ?_⟩
  · rw [hS, List.length_map, List.length_take]
    omega
  · rw [hS]
    exact hnd3.sublist ((List.take_sublist k _).map Prod.fst)
  · intro v hv
    rw [hS] at hv
    obtain ⟨e, he, heq⟩ := List.mem_map.mp hv
    have h1 : e ∈ (st.variants.filter (fun e => isActive e.2.status)).insertionSort variantRank :=
      List.mem_of_mem_take he
    have h2 : e ∈ st.variants.filter (fun e => isActive e.2.status) := hperm.mem_iff.mp h1
    have h3 : e ∈ st.variants := List.mem_of_mem_filter h2
    exact heq ▸ List.mem_map_of_mem Prod.fst h3

theorem lookupA_projEntry {α β : Type} (g : String × α → β) (l : List (String × α)) (v : String) :
    lookupA (l.map (fun e => (e.1, g e))) v = (l.find? (fun e => decide (e.1 = v))).map g := by
  unfold lookupA
  rw [List.find?_map]
  have hc : ((fun e : String × β => decide (e.1 = v)) ∘ fun e : String × α => (e.1, g e)) =
      (fun e : String × α => decide (e.1 = v)) := by
    funext e; rfl
  rw [hc]
  cases l.find? (fun e : String × α => decide (e.1 = v)) <;> rfl

theorem find?_key {α : Type} (l : List (String × α)) (v : String) (h : v ∈ l.map Prod.fst) :
    ∃ e₀, l.find? (fun e => decide (e.1 = v)) = some e₀ ∧ e₀.1 = v := by
  have hs : (l.find? (fun e => decide (e.1 = v))).isSome := by
    rw [List.find?_isSome]
    obtain ⟨e, he, hfst⟩ := List.mem_map.mp h
    exact ⟨e, he, by simp [hfst]⟩
  obtain ⟨e₀, he₀⟩ := Option.isSome_iff_exists.mp hs
  have hp := List.find?_some he₀
  simp only [decide_eq_true_eq] at hp
  exact ⟨e₀, he₀, hp⟩

theorem applyTopK_include (S : List String) (st : EngineState) (v : String)
    (hv : v ∈ S) (hk : v ∈ st.variants.map Prod.fst) :
    lookupA ((applyTopK S st).variants.map (fun e => (e.1, e.2.status))) v = some .Include := by
  unfold applyTopK
  dsimp only
  rw [List.map_map]
  have hco : ((fun e : String × VariantState => (e.1, e.2.status)) ∘ fun e =>
      if e.1 ∈ S then (e.1, { e.2 with status := VariantStatus.Include })
      else if isActive e.2.status then (e.1, { e.2 with status := VariantStatus.Exclude })
      else e) = fun e : String × VariantState =>
      (e.1, if e.1 ∈ S then VariantStatus.Include
        else if isActive e.2.status then VariantStatus.Exclude else e.2.status) := by
    funext e
    by_cases h1 : e.1 ∈ S
    · simp [h1]
    · by_cases h2 : isActive e.2.status <;> simp [h1, h2]
  rw [hco, lookupA_projEntry (fun e => if e.1 ∈ S then VariantStatus.Include
    else if isActive e.2.status then VariantStatus.Exclude else e.2.status) st.variants v]
  obtain ⟨e₀, hfind, hfst⟩ := find?_key st.variants v hk
  rw [hfind, Option.map_some']
  rw [if_pos (by rw [hfst]; exact hv)]

theorem applyTopK_nonmem (S : List String) (st : EngineState) (hni : noInclude st) :
    ∀ e ∈ (applyTopK S st).variants, e.1 ∉ S →
      e.2.status = .Exclude ∨ e.2.status = .Failed := by
  unfold applyTopK
  intro e he hns
  dsimp only at he
  obtain ⟨e₀, he₀, heq⟩ := List.mem_map.mp he
  by_cases h1 : e₀.1 ∈ S
  · rw [if_pos h1] at heq
    rw [← heq] at hns
    exact absurd h1 hns
  · rw [if_neg h1] at heq
    by_cases h2 : isActive e₀.2.status
    · rw [if_pos h2] at heq
      left
      rw [← heq]
    · rw [if_neg h2] at heq
      rw [← heq]
      cases hst : e₀.2.status with
      | Active => rw [hst] at h2; exact absurd rfl h2
      | Include => exact absurd hst (hni e₀ he₀)
      | Exclude => left; rfl
      | Failed => right; rfl

/-! ### Lemmas: initial state and loop facts -/

theorem initState_keys (p : TopKTaskParams) (env : TopKEnv) :
    (initState p env).variants.map Prod.fst = dedupSort p.variant_names := by
  unfold initState
  dsimp only
  rw [List.map_map]
  exact List.map_id _

theorem initState_nodup (p : TopKTaskParams) (env : TopKEnv) :
    ((initState p env).variants.map Prod.fst).Nodup := by
  rw [initState_keys]
  exact List.nodup_dedup _

theorem initState_noInclude (p : TopKTaskParams) (env : TopKEnv) :
    noInclude (initState p env) := by
  unfold initState noInclude
  intro e he
  dsimp only at he
  obtain ⟨v, _, heq⟩ := List.mem_map.mp he
  rw [← heq]
  unfold initVariant
  simp

theorem initState_csWF (p : TopKTaskParams) (env : TopKEnv) : stCsWF (initState p env) := by
  unfold initState stCsWF
  constructor
  · intro e he
    dsimp only at he
    obtain ⟨v, _, heq⟩ := List.mem_map.mp he
    rw [← heq]
    unfold initVariant varCsWF
    constructor
    · exact mbcsNew_wf v
    · intro pe hpe
      dsimp only at hpe
      obtain ⟨en, _, heq2⟩ := List.mem_map.mp hpe
      rw [← heq2]
      exact mbcsNew_wf en
  · intro e he
    dsimp only at he
    obtain ⟨en, _, heq⟩ := List.mem_map.mp he
    rw [← heq]
    exact mbcsNew_wf en

theorem stoppingCheck_cursor (p : TopKTaskParams) (st : EngineState) :
    (stoppingCheck p st).2.cursor = st.cursor := by
  unfold stoppingCheck
  dsimp only
  split
  · rfl
  · split
    · rfl
    · split <;> rfl

theorem batchSize_le (env : TopKEnv) (p : TopKTaskParams) (st : EngineState) :
    batchSize env p st ≤ env.dataset.length - st.cursor := by
  unfold batchSize
  exact min_le_right _ _

theorem batch_length (env : TopKEnv) (p : TopKTaskParams) (st : EngineState) :
    ((env.dataset.drop st.cursor).take (batchSize env p st)).length = batchSize env p st := by
  rw [List.length_take, List.length_drop]
  exact min_eq_left (batchSize_le env p st)

theorem loopCore_total (env : TopKEnv) (p : TopKTaskParams) :
    ∀ (fuel : ℕ) (st : EngineState), env.dataset.length - st.cursor < fuel →
      ∃ res, loopCore env p fuel st = some res := by
  intro fuel
  induction fuel with
  | zero => intro st h; omega
  | succ fuel ih =>
    intro st h
    by_cases hB : batchSize env p st = 0
    · exact ⟨(st, .DatasetExhausted), by rw [loopCore, if_pos hB]⟩
    · rcases hsc : stoppingCheck p
          (processBatch env st ((env.dataset.drop st.cursor).take (batchSize env p st))) with
        ⟨ro, st₂⟩
      cases ro with
      | some r => exact ⟨(st₂, r), by rw [loopCore, if_neg hB, hsc]⟩
      | none =>
        have hcur : st₂.cursor = st.cursor + batchSize env p st := by
          have h1 := stoppingCheck_cursor p
            (processBatch env st ((env.dataset.drop st.cursor).take (batchSize env p st)))
          rw [hsc] at h1
          rw [h1, processBatch_cursor, batch_length]
        have hlt : env.dataset.length - st₂.cursor < fuel := by
          have hle := batchSize_le env p st
          omega
        obtain ⟨res, hres⟩ := ih st₂ hlt
        exact ⟨res, by rw [loopCore, if_neg hB, hsc]; exact hres⟩

theorem loopCore_topk (env : TopKEnv) (p : TopKTaskParams) :
    ∀ (fuel : ℕ) (st st' : EngineState) (k : ℕ) (S : List String),
      noInclude st → ((st.variants.map Prod.fst).Nodup) →
      loopCore env p fuel st = some (st', .TopKFound k S) →
      S.length = k ∧ S.Nodup ∧ p.k_min ≤ k ∧ k ≤ p.k_max ∧
      (∀ v ∈ S, lookupA (st'.variants.map (fun e => (e.1, e.2.status))) v = some .Include) ∧
      (∀ e ∈ st'.variants, e.1 ∉ S → e.2.status = .Exclude ∨ e.2.status = .Failed) := by
  intro fuel
  induction fuel with
  | zero =>
    intro st st' k S _ _ h
    simp [loopCore] at h
  | succ fuel ih =>
    intro st st' k S hni hnd h
    rw [loopCore] at h
    split at h
    · rw [Option.some.injEq, Prod.mk.injEq] at h
      exact absurd h.2 (by simp)
    · split at h
      next r st₂ hsc =>
        rw [Option.some.injEq, Prod.mk.injEq] at h
        obtain ⟨hst, hr⟩ := h
        subst hst
        rcases stoppingCheck_cases _ _ _ _ hsc with
          ⟨ns, hns, _⟩ | ⟨n, hn, _⟩ | ⟨kS, hkS, hfind, heq⟩
        · rw [hns] at hr; exact absurd hr (by simp)
        · rw [hn] at hr; exact absurd hr (by simp)
        · rw [hkS] at hr
          rw [GlobalStoppingReason.TopKFound.injEq] at hr
          obtain ⟨hk2, hS2⟩ := hr
          set stb := processBatch env st ((env.dataset.drop st.cursor).take (batchSize env p st))
            with hstb
          have hb_st : stb.variants.map (fun e => (e.1, e.2.status)) =
              st.variants.map (fun e => (e.1, e.2.status)) := processBatch_statuses env st _
          have hni1 : noInclude stb := statuses_to_noInclude _ _ hb_st hni
          have hnd1 : (stb.variants.map Prod.fst).Nodup := by
            rw [statuses_to_keys _ _ hb_st]; exact hnd
          have hni2 : noInclude (markExcludedVariants p (markFailedVariants p stb)) :=
            markExcluded_noInclude p _ (markFailed_noInclude p _ hni1)
          have hnd2 : ((markExcludedVariants p (markFailedVariants p stb)).variants.map
              Prod.fst).Nodup := by
            rw [markExcluded_keys, markFailed_keys]; exact hnd1
          obtain ⟨hlen, hSnd, hkeys⟩ := findTopK_props p _ kS.1 kS.2 hnd2 hfind
          refine ⟨?_, ?_, ?_, ?_, ?_, ?_⟩
          · rw [← hS2, ← hk2] at *; exact hlen
          · rw [← hS2]; exact hSnd
          · rw [← hk2]; exact (findTopK_some p _ kS.1 kS.2 hfind).1
          · rw [← hk2]; exact (findTopK_some p _ kS.1 kS.2 hfind).2.1
          · intro v hv
            rw [heq]
            rw [← hS2] at hv
            exact applyTopK_include kS.2 _ v hv (hkeys v hv)
          · intro e he hns
            rw [heq] at he
            rw [← hS2] at hns
            exact applyTopK_nonmem kS.2 _ hni2 e he hns
      next st₂ hsc =>
        have hni2 : noInclude st₂ := by
          rw [stoppingCheck_none_eq p _ _ hsc]
          exact markExcluded_noInclude p _ (markFailed_noInclude p _
            (statuses_to_noInclude _ _ (processBatch_statuses env st _) hni))
        have hnd2 : (st₂.variants.map Prod.fst).Nodup := by
          rw [stoppingCheck_none_eq p _ _ hsc, markExcluded_keys, markFailed_keys,
            statuses_to_keys _ _ (processBatch_statuses env st _)]
          exact hnd
        exact ih st₂ st' k S hni2 hnd2 h

theorem stoppingCheck_csWF (p : TopKTaskParams) (st : EngineState) (h : stCsWF st) :
    stCsWF (stoppingCheck p st).2 := by
  unfold stoppingCheck
  dsimp only
  split
  · exact h
  · split
    · exact markFailed_csWF p st h
    · split
      · exact applyTopK_csWF _ _ (markExcluded_csWF p _ (markFailed_csWF p st h))
      · exact markExcluded_csWF p _ (markFailed_csWF p st h)

theorem loopCore_csWF (env : TopKEnv) (p : TopKTaskParams) (henv : envWF env) :
    ∀ (fuel : ℕ) (st st' : EngineState) (r : GlobalStoppingReason),
      stCsWF st → loopCore env p fuel st = some (st', r) → stCsWF st' := by
  intro fuel
  induction fuel with
  | zero => intro st st' r _ h; simp [loopCore] at h
  | succ fuel ih =>
    intro st st' r hwf h
    rw [loopCore] at h
    split at h
    · rw [Option.some.injEq, Prod.mk.injEq] at h
      rw [← h.1]
      exact hwf
    · split at h
      next r₀ st₂ hsc =>
        rw [Option.some.injEq, Prod.mk.injEq] at h
        rw [← h.1]
        have hb : stCsWF (processBatch env st
            ((env.dataset.drop st.cursor).take (batchSize env p st))) :=
          processBatch_csWF env henv st _ hwf
        have h2 := stoppingCheck_csWF p _ hb
        rw [hsc] at h2
        exact h2
      next st₂ hsc =>
        have hb : stCsWF (processBatch env st
            ((env.dataset.drop st.cursor).take (batchSize env p st))) :=
          processBatch_csWF env henv st _ hwf
        have h2 := stoppingCheck_csWF p _ hb
        rw [hsc] at h2
        exact ih st₂ st' r h2 h

/-! ### Lemmas: averaged performance snapshot -/

theorem listSum_nonneg (l : List ℚ) (h : ∀ x ∈ l, 0 ≤ x) : 0 ≤ l.sum := by
  induction l with
  | nil => simp
  | cons x xs ih =>
    rw [List.sum_cons]
    have hx := h x (List.mem_cons_self x xs)
    have hxs := ih (fun y hy => h y (List.mem_cons_of_mem x hy))
    linarith

theorem listSum_le_length (l : List ℚ) (h : ∀ x ∈ l, x ≤ 1) : l.sum ≤ (l.length : ℚ) := by
  induction l with
  | nil => simp
  | cons x xs ih =>
    rw [List.sum_cons, List.length_cons]
    have hx := h x (List.mem_cons_self x xs)
    have hxs := ih (fun y hy => h y (List.mem_cons_of_mem x hy))
    push_cast
    linarith

theorem listSum_le_listSum {α : Type} (l : List α) (f g : α → ℚ) (h : ∀ x ∈ l, f x ≤ g x) :
    (l.map f).sum ≤ (l.map g).sum := by
  induction l with
  | nil => simp
  | cons x xs ih =>
    rw [List.map_cons, List.map_cons, List.sum_cons, List.sum_cons]
    have hx := h x (List.mem_cons_self x xs)
    have hxs := ih (fun y hy => h y (List.mem_cons_of_mem x hy))
    linarith

theorem ratAvg_nonneg (l : List ℚ) (h : ∀ x ∈ l, 0 ≤ x) : 0 ≤ ratAvg l := by
  unfold ratAvg
  apply div_nonneg (listSum_nonneg l h)
  positivity

theorem ratAvg_le_one (l : List ℚ) (h : ∀ x ∈ l, x ≤ 1) : ratAvg l ≤ 1 := by
  unfold ratAvg
  rcases Nat.eq_zero_or_pos l.length with h0 | hpos
  · rw [h0]
    simp
  · rw [div_le_one (by positivity)]
    exact listSum_le_length l h

theorem ratAvg_map_mono {α : Type} (l : List α) (f g : α → ℚ) (h : ∀ x ∈ l, f x ≤ g x) :
    ratAvg (l.map f) ≤ ratAvg (l.map g) := by
  unfold ratAvg
  rw [List.length_map, List.length_map]
  rcases Nat.eq_zero_or_pos l.length with h0 | hpos
  · rw [List.eq_nil_of_length_eq_zero h0]
    simp
  · have hsum := listSum_le_listSum l f g h
    have hden : (0 : ℚ) < (l.length : ℚ) := by positivity
    gcongr

theorem perfSnapshot_wf (vname : String) (vs : VariantState)
    (h : ∀ pe ∈ vs.per_evaluator, mbcsWF pe.2) : mbcsWF (perfSnapshot vname vs) := by
  unfold perfSnapshot mbcsWF variantScoreLower variantScoreUpper variantScoreEst
  dsimp only
  refine ⟨?_, ?_, ?_, ?_⟩
  · exact ratAvg_nonneg _ (by
      intro x hx
      obtain ⟨pe, hpe, heq⟩ := List.mem_map.mp hx
      rw [← heq]
      exact (h pe hpe).1)
  · exact ratAvg_map_mono _ _ _ (fun pe hpe => (h pe hpe).2.1)
  · exact ratAvg_map_mono _ _ _ (fun pe hpe => (h pe hpe).2.2.1)
  · exact ratAvg_le_one _ (by
      intro x hx
      obtain ⟨pe, hpe, heq⟩ := List.mem_map.mp hx
      rw [← heq]
      exact (h pe hpe).2.2.2)

/-! ### Lemmas: orchestrator entry point -/

theorem runTopKTask_ok (runId : ℕ) (p : TopKTaskParams) (env : TopKEnv) (out : TopKTaskOutput)
    (h : runTopKTask runId p env = .ok out) :
    validateTopKParams p = .ok () ∧
    ∃ st' r, loopCore env p (env.dataset.length + 1) (initState p env) = some (st', r) ∧
      out = mkOutput runId st' r := by
  unfold runTopKTask at h
  split at h
  · exact absurd h (by simp)
  next u hval =>
    split at h
    next sr hloop =>
      rw [Except.ok.injEq] at h
      obtain ⟨⟩ := u
      exact ⟨hval, sr.1, sr.2, hloop, h.symm⟩
    · exact absurd h (by simp)

theorem validateTopKParams_cases (p : TopKTaskParams) :
    validateTopKParams p = .ok () ∨ ∃ m, validateTopKParams p = .error (.invalidParams m) := by
  unfold validateTopKParams
  split_ifs
  · right; exact ⟨_, rfl⟩
  · right; exact ⟨_, rfl⟩
  · right; exact ⟨_, rfl⟩
  · right; exact ⟨_, rfl⟩
  · right; exact ⟨_, rfl⟩
  · right; exact ⟨_, rfl⟩
  · left; rfl

theorem validateTopKParams_ok_conditions (p : TopKTaskParams)
    (h : validateTopKParams p = .ok ()) :
    1 ≤ p.k_min ∧ p.k_min ≤ p.k_max ∧ p.k_max ≤ p.variant_names.length ∧
    0 ≤ p.variant_failure_threshold ∧ p.variant_failure_threshold ≤ 1 ∧
    0 ≤ p.evaluator_failure_threshold ∧ p.evaluator_failure_threshold ≤ 1 ∧
    1 ≤ p.concurrency := by
  unfold validateTopKParams at h
  split_ifs at h with h1 h2 h3 h4 h5 h6
  push_neg at h4 h5
  refine ⟨by omega, by omega, by omega, h4.1, h4.2, h5.1, h5.2, by omega⟩

/-! ### Lemmas: the poll loop -/

theorem pollNonterminal_elim (r : Except String (Option String))
    (h : pollNonterminal r = true) :
    ∃ st, r = .ok st ∧ st ≠ some "completed" ∧ st ≠ some "failed" := by
  unfold pollNonterminal at h
  cases r with
  | error e => simp at h
  | ok st =>
    refine ⟨st, rfl, ?_, ?_⟩ <;>
    · intro hc
      subst hc
      simp at h

theorem pollNonterminal_intro (st : Option String) (hc : st ≠ some "completed")
    (hf : st ≠ some "failed") : pollNonterminal (.ok st) = true := by
  unfold pollNonterminal
  simp [hc, hf]

theorem pollGo_skip (env : PollEnv) :
    ∀ (n i fuel : ℕ), n ≤ fuel →
      (∀ t, t < n → pollNonterminal (env.stateSeq (i + t)) = true ∧
        pollSleepMs * (i + t) ≤ pollTimeoutMs) →
      pollGo env fuel i = pollGo env (fuel - n) (i + n) := by
  intro n
  induction n with
  | zero => intro i fuel _ _; simp
  | succ n ih =>
    intro i fuel hn h
    obtain ⟨f, rfl⟩ : ∃ f, fuel = f + 1 := ⟨fuel - 1, by omega⟩
    obtain ⟨h0, hsl⟩ := h 0 (Nat.succ_pos n)
    rw [Nat.add_zero] at h0 hsl
    obtain ⟨st, hst, hc, hf⟩ := pollNonterminal_elim _ h0
    rw [pollGo, if_neg (Nat.not_lt.mpr hsl), hst]
    dsimp only
    rw [if_neg hc, if_neg hf]
    have e1 : f + 1 - (n + 1) = f - n := by omega
    have e2 : i + (n + 1) = (i + 1) + n := by omega
    rw [e1, e2]
    refine ih (i + 1) f (by omega) ?_
    intro t ht
    have h2 := h (t + 1) (by omega)
    have e3 : i + 1 + t = i + (t + 1) := by omega
    rw [e3]
    exact h2

theorem pollTopkTask_completed (env : PollEnv) (j : ℕ) (out : TopKTaskOutput)
    (hj : j ≤ 7200) (hnt : ∀ t, t < j → pollNonterminal (env.stateSeq t) = true)
    (hstate : env.stateSeq j = .ok (some "completed"))
    (js : ℕ) (hpay : env.payload = .ok (some (some js))) (hdes : env.deser js = .ok out) :
    pollTopkTask env = .ok out := by
  unfold pollTopkTask
  have hskip := pollGo_skip env j 0 pollFuel (by unfold pollFuel; omega)
    (fun t ht => ⟨by rw [Nat.zero_add]; exact hnt t ht,
      by rw [Nat.zero_add]; unfold pollSleepMs pollTimeoutMs; omega⟩)
  rw [Nat.zero_add] at hskip
  rw [hskip]
  obtain ⟨m, hm⟩ : ∃ m, pollFuel - j = m + 1 := ⟨pollFuel - j - 1, by unfold pollFuel; omega⟩
  rw [hm, pollGo, if_neg (by unfold pollSleepMs pollTimeoutMs; omega), hstate]
  dsimp only
  rw [if_pos rfl, hpay]
  dsimp only
  rw [hdes]
  rfl

theorem pollTopkTask_failed (env : PollEnv) (j : ℕ)
    (hj : j ≤ 7200) (hnt : ∀ t, t < j → pollNonterminal (env.stateSeq t) = true)
    (hstate : env.stateSeq j = .ok (some "failed")) :
    pollTopkTask env = .error (.Evaluation ("Top-k task failed: " ++ failedErrMsg env)) := by
  unfold pollTopkTask
  have hskip := pollGo_skip env j 0 pollFuel (by unfold pollFuel; omega)
    (fun t ht => ⟨by rw [Nat.zero_add]; exact hnt t ht,
      by rw [Nat.zero_add]; unfold pollSleepMs pollTimeoutMs; omega⟩)
  rw [Nat.zero_add] at hskip
  rw [hskip]
  obtain ⟨m, hm⟩ : ∃ m, pollFuel - j = m + 1 := ⟨pollFuel - j - 1, by unfold pollFuel; omega⟩
  rw [hm, pollGo, if_neg (by unfold pollSleepMs pollTimeoutMs; omega), hstate]
  dsimp only
  rw [if_neg (by simp), if_pos rfl]
  rfl

theorem pollTopkTask_timeout (env : PollEnv)
    (hnt : ∀ t, t ≤ 7200 → pollNonterminal (env.stateSeq t) = true) :
    pollTopkTask env = .error (.Evaluation "Top-k evaluation timed out") := by
  unfold pollTopkTask
  have hskip := pollGo_skip env 7201 0 pollFuel (by unfold pollFuel; omega)
    (fun t ht => ⟨by rw [Nat.zero_add]; exact hnt t (by omega),
      by rw [Nat.zero_add]; unfold pollSleepMs pollTimeoutMs; omega⟩)
  rw [Nat.zero_add] at hskip
  rw [hskip]
  rw [show pollFuel - 7201 = 1 + 1 from by unfold pollFuel; omega]
  rw [pollGo, if_pos (by unfold pollSleepMs pollTimeoutMs; omega)]
  rfl

theorem pollGo_ok_exists (env : PollEnv) :
    ∀ (fuel i : ℕ) (out : TopKTaskOutput), pollGo env fuel i = some (.ok out) →
      ∃ j, i ≤ j ∧ pollSleepMs * j ≤ pollTimeoutMs ∧
        (∀ t, i ≤ t → t < j → pollNonterminal (env.stateSeq t) = true) ∧
        env.stateSeq j = .ok (some "completed") ∧
        ∃ js, env.payload = .ok (some (some js)) ∧ env.deser js = .ok out := by
  intro fuel
  induction fuel with
  | zero => intro i out h; simp [pollGo] at h
  | succ fuel ih =>
    intro i out h
    rw [pollGo] at h
    split at h
    · exact absurd h (by simp)
    next hto =>
      split at h
      · exact absurd h (by simp)
      next st hst =>
        split at h
        next hc =>
          subst hc
          split at h
          · exact absurd h (by simp)
          next p hpay =>
            split at h
            next js =>
              split at h
              next o hdes =>
                rw [Option.some.injEq, Except.ok.injEq] at h
                subst h
                refine ⟨i, le_rfl, Nat.not_lt.mp hto,
                  fun t h1 h2 => absurd h2 (Nat.not_lt.mpr h1), hst, js, ?_, hdes⟩
                rw [hpay]
              next e hdes => exact absurd h (by simp)
            next hp => exact absurd h (by simp)
        next hc =>
          split at h
          next hf => exact absurd h (by simp)
          next hf =>
            obtain ⟨j, hij, hsl, hint, hcomp, hrest⟩ := ih (i + 1) out h
            refine ⟨j, by omega, hsl, ?_, hcomp, hrest⟩
            intro t h1 h2
            rcases Nat.eq_or_lt_of_le h1 with heq | hlt
            · rw [← heq, hst]
              exact pollNonterminal_intro st hc hf
            · exact hint t (by omega) h2

/-! ### Claim theorems -/

/-- C1: Every terminal condition of the top-k run — including the abnormal
ones (EvaluatorsFailed, TooManyVariantsFailed, DatasetExhausted) — yields a
successful `TopKTaskOutput` whose `stopping_reason` field is the reason the
loop terminated with; after validation passes, the run is total and never
surfaces a terminal condition as an error. -/
theorem topk_terminal_conditions_return_success (runId : ℕ) (p : TopKTaskParams)
    (env : TopKEnv) (hval : validateTopKParams p = .ok ()) :
    ∃ st' r, loopCore env p (env.dataset.length + 1) (initState p env) = some (st', r) ∧
      runTopKTask runId p env = .ok (mkOutput runId st' r) ∧
      (mkOutput runId st' r).stopping_reason = r := by
  obtain ⟨res, hres⟩ := loopCore_total env p (env.dataset.length + 1) (initState p env) (by
    have hc : (initState p env).cursor = 0 := rfl
    omega)
  refine ⟨res.1, res.2, hres, ?_, rfl⟩
  unfold runTopKTask
  rw [hval, hres]

/-- C1 witness: validation passes on `pW1` and the empty-dataset run returns a
successful output. -/
theorem topk_terminal_conditions_return_success_witness :
    ∃ st' r, loopCore envW0 pW1 (envW0.dataset.length + 1) (initState pW1 envW0) =
        some (st', r) ∧
      runTopKTask 0 pW1 envW0 = .ok (mkOutput 0 st' r) ∧
      (mkOutput 0 st' r).stopping_reason = r :=
  topk_terminal_conditions_return_success 0 pW1 envW0
    (of_decide_eq_true (by with_unfolding_all rfl))

/-- C2: Whenever a run ends with `stopping_reason = TopKFound k S`, the set
`S` has exactly `k` (distinct) elements, `k` lies in `[k_min, k_max]`, every
variant in `S` has status `Include` in `variant_status`, and every variant not
in `S` has status `Exclude` or `Failed`. -/
theorem topk_found_invariants (runId : ℕ) (p : TopKTaskParams) (env : TopKEnv)
    (out : TopKTaskOutput) (k : ℕ) (S : List String)
    (hrun : runTopKTask runId p env = .ok out)
    (hreason : out.stopping_reason = .TopKFound k S) :
    S.length = k ∧ S.Nodup ∧ p.k_min ≤ k ∧ k ≤ p.k_max ∧
    (∀ v ∈ S, lookupA out.variant_status v = some .Include) ∧
    (∀ pr ∈ out.variant_status, pr.1 ∉ S → pr.2 = .Exclude ∨ pr.2 = .Failed) := by
  obtain ⟨hval, st', r, hloop, hout⟩ := runTopKTask_ok runId p env out hrun
  subst hout
  have hr : r = .TopKFound k S := hreason
  subst hr
  obtain ⟨h1, h2, h3, h4, h5, h6⟩ := loopCore_topk env p _ _ _ k S
    (initState_noInclude p env) (initState_nodup p env) hloop
  refine ⟨h1, h2, h3, h4, fun v hv => h5 v hv, ?_⟩
  intro pr hpr hnm
  have hpr2 : pr ∈ st'.variants.map (fun e => (e.1, e.2.status)) := hpr
  obtain ⟨e, he, heq⟩ := List.mem_map.mp hpr2
  have hns : e.1 ∉ S := by rw [← heq] at hnm; exact hnm
  have := h6 e he hns
  rw [← heq]
  exact this

/-- C2 witness: the two-variant run on `envW2` terminates with
`TopKFound 2 ["a", "b"]` and the invariants hold there. -/
theorem topk_found_invariants_witness :
    (["a", "b"] : List String).length = 2 ∧ (["a", "b"] : List String).Nodup ∧
    pW2.k_min ≤ 2 ∧ 2 ≤ pW2.k_max ∧
    (∀ v ∈ (["a", "b"] : List String), lookupA outW2.variant_status v = some .Include) ∧
    (∀ pr ∈ outW2.variant_status, pr.1 ∉ (["a", "b"] : List String) →
      pr.2 = .Exclude ∨ pr.2 = .Failed) :=
  topk_found_invariants 7 pW2 envW2 outW2 2 ["a", "b"]
    (of_decide_eq_true (by set_option maxRecDepth 40000 in with_unfolding_all rfl))
    (of_decide_eq_true (by set_option maxRecDepth 40000 in with_unfolding_all rfl))

/-- C3: The betting-confidence-sequence invariant
`0 ≤ cs_lower ≤ mean_est ≤ cs_upper ≤ 1` holds at every point (after any
prefix of in-range observations applied to a fresh tracker) and for every
tracker serialized into a run's output — the per-variant performance
snapshots, the per-variant failure trackers and the per-evaluator failure
trackers. -/
theorem betting_cs_bounds_invariant :
    (∀ (nm : String) (xs : List ℚ), (∀ x ∈ xs, 0 ≤ x ∧ x ≤ 1) →
      mbcsWF (xs.foldl mbcsUpdate (mbcsNew nm))) ∧
    (∀ (runId : ℕ) (p : TopKTaskParams) (env : TopKEnv) (out : TopKTaskOutput),
      envWF env → runTopKTask runId p env = .ok out →
      (∀ e ∈ out.variant_performance, mbcsWF e.2) ∧
      (∀ e ∈ out.variant_failures, mbcsWF e.2) ∧
      (∀ e ∈ out.evaluator_failures, mbcsWF e.2)) := by
  constructor
  · intro nm xs h
    exact mbcsFoldl_wf xs (mbcsNew nm) (mbcsNew_wf nm) h
  · intro runId p env out henv hrun
    obtain ⟨hval, st', r, hloop, hout⟩ := runTopKTask_ok runId p env out hrun
    subst hout
    have hwf : stCsWF st' :=
      loopCore_csWF env p henv _ (initState p env) st' r (initState_csWF p env) hloop
    refine ⟨?_, ?_, ?_⟩
    · intro e he
      have he2 : e ∈ st'.variants.map (fun e => (e.1, perfSnapshot e.1 e.2)) := he
      obtain ⟨e₀, he₀, heq⟩ := List.mem_map.mp he2
      rw [← heq]
      exact perfSnapshot_wf e₀.1 e₀.2 (hwf.1 e₀ he₀).2
    · intro e he
      have he2 : e ∈ st'.variants.map (fun e => (e.1, e.2.failures)) := he
      obtain ⟨e₀, he₀, heq⟩ := List.mem_map.mp he2
      rw [← heq]
      exact (hwf.1 e₀ he₀).1
    · intro e he
      have he2 : e ∈ st'.evaluator_failures := he
      exact hwf.2 e he2

/-- C3 witness: the invariant after two concrete observations, and for all
trackers in the empty-dataset run's output. -/
theorem betting_cs_bounds_invariant_witness :
    mbcsWF (([1, 0] : List ℚ).foldl mbcsUpdate (mbcsNew "w")) ∧
    ((∀ e ∈ outW0.variant_performance, mbcsWF e.2) ∧
     (∀ e ∈ outW0.variant_failures, mbcsWF e.2) ∧
     (∀ e ∈ outW0.evaluator_failures, mbcsWF e.2)) :=
  ⟨betting_cs_bounds_invariant.1 "w" [1, 0]
      (of_decide_eq_true (by with_unfolding_all rfl)),
    betting_cs_bounds_invariant.2 0 pW1 envW0 outW0
      (fun _ _ _ _ h => Option.noConfusion h)
      (of_decide_eq_true (by with_unfolding_all rfl))⟩

/-- C5: The orchestrator validates its parameters before constructing the
sampling loop: any input with `k_min > k_max`, `k_max > |variant_names|`,
`k_min < 1`, a failure threshold outside `[0,1]`, or `concurrency < 1` makes
the run fail with a configuration error instead of starting. -/
theorem orchestrator_validates_params (runId : ℕ) (p : TopKTaskParams) (env : TopKEnv)
    (hbad : p.k_min < 1 ∨ p.k_max < p.k_min ∨ p.variant_names.length < p.k_max ∨
      p.variant_failure_threshold < 0 ∨ 1 < p.variant_failure_threshold ∨
      p.evaluator_failure_threshold < 0 ∨ 1 < p.evaluator_failure_threshold ∨
      p.concurrency < 1) :
    ∃ msg, runTopKTask runId p env = .error (.invalidParams msg) := by
  rcases validateTopKParams_cases p with hok | ⟨m, herr⟩
  · obtain ⟨c1, c2, c3, c4, c5, c6, c7, c8⟩ := validateTopKParams_ok_conditions p hok
    rcases hbad with h | h | h | h | h | h | h | h
    · omega
    · omega
    · omega
    · exact absurd h (not_lt.mpr c4)
    · exact absurd h (not_lt.mpr c5)
    · exact absurd h (not_lt.mpr c6)
    · exact absurd h (not_lt.mpr c7)
    · omega
  · exact ⟨m, by unfold runTopKTask; rw [herr]⟩

/-- C5 witness: the `k_min = 0` parameters are rejected with a configuration
error. -/
theorem orchestrator_validates_params_witness :
    ∃ msg, runTopKTask 0 pW5 envW0 = .error (.invalidParams msg) :=
  orchestrator_validates_params 0 pW5 envW0 (Or.inl (by decide))

/-- C7: With deterministic inference and evaluator executors (functions of
their arguments in this model), two runs with the same parameters agree on
every output field except `evaluation_run_id`: scrubbing the run id makes the
results of two runs with different run ids equal. -/
theorem topk_run_deterministic (p : TopKTaskParams) (env : TopKEnv) (id₁ id₂ : ℕ) :
    (runTopKTask id₁ p env).map eraseRunId = (runTopKTask id₂ p env).map eraseRunId := by
  unfold runTopKTask
  cases validateTopKParams p with
  | error e => rfl
  | ok u =>
    cases loopCore env p (env.dataset.length + 1) (initState p env) with
    | none => rfl
    | some sr => rfl

/-- C4: When the evaluation name is not present in the gateway config,
`EmbeddedClient::run_topk_evaluation` returns the typed Evaluation error
"Evaluation '<name>' not found in config" with an empty effect trace: no
client is built, no task is spawned, and hence no inference or evaluator call
is made. -/
theorem unknown_evaluation_rejected_before_spawn (env : ClientEnv)
    (params : RunTopKEvaluationParams)
    (h : lookupA env.evaluations params.evaluation_name = none) :
    runTopkEvaluationClient env params =
      (.error (.Evaluation ("Evaluation " ++ squote ++ params.evaluation_name ++ squote ++
        " not found in config")), []) := by
  unfold runTopkEvaluationClient
  rw [h]

/-- C4 witness: the lookup of "nonexistent_evaluation" in an empty config
fails with exactly that error and an empty trace. -/
theorem unknown_evaluation_rejected_before_spawn_witness :
    runTopkEvaluationClient cEnvC4 paramsC4 =
      (.error (.Evaluation ("Evaluation " ++ squote ++ paramsC4.evaluation_name ++ squote ++
        " not found in config")), []) :=
  unknown_evaluation_rejected_before_spawn cEnvC4 paramsC4 (by decide)

/-- C9: `EmbeddedClient::run_topk_evaluation` requires a PostgreSQL pool:
whenever the gateway has none, the call errors and never spawns a task, and
when the preceding steps (config lookup, client build) succeed, the error is
exactly "PostgreSQL connection required for top-k evaluation", raised before
any spawn. -/
theorem postgres_pool_required (env : ClientEnv) (params : RunTopKEvaluationParams)
    (hpool : env.postgresPool = none) :
    ((∃ e, (runTopkEvaluationClient env params).1 = .error e) ∧
      (∀ tid, ClientEvent.spawnedTask tid ∉ (runTopkEvaluationClient env params).2)) ∧
    (∀ cfg, lookupA env.evaluations params.evaluation_name = some cfg →
      env.clientBuild = .ok () →
      runTopkEvaluationClient env params =
        (.error (.Evaluation "PostgreSQL connection required for top-k evaluation"),
          [.builtClient])) := by
  rcases hl : lookupA env.evaluations params.evaluation_name with _ | cfg
  · have hres : runTopkEvaluationClient env params =
        (.error (.Evaluation ("Evaluation " ++ squote ++ params.evaluation_name ++ squote ++
          " not found in config")), []) := by
      unfold runTopkEvaluationClient
      rw [hl]
    refine ⟨⟨⟨_, by rw [hres]⟩, ?_⟩, ?_⟩
    · intro tid
      rw [hres]
      simp
    · intro cfg hcfg _
      exact absurd hcfg (by simp)
  · rcases hb : env.clientBuild with e | u
    · have hres : runTopkEvaluationClient env params =
          (.error (.Evaluation ("Failed to build client: " ++ e)), []) := by
        unfold runTopkEvaluationClient
        rw [hl, hb]
      refine ⟨⟨⟨_, by rw [hres]⟩, ?_⟩, ?_⟩
      · intro tid
        rw [hres]
        simp
      · intro cfg' _ hbuild
        exact absurd hbuild (by simp)
    · obtain ⟨⟩ := u
      have hres : runTopkEvaluationClient env params =
          (.error (.Evaluation "PostgreSQL connection required for top-k evaluation"),
            [.builtClient]) := by
        unfold runTopkEvaluationClient
        rw [hl, hb, hpool]
      refine ⟨⟨⟨_, by rw [hres]⟩, ?_⟩, ?_⟩
      · intro tid
        rw [hres]
        simp
      · intro cfg' _ _
        exact hres

/-- C9 witness: with a configured evaluation, a successful client build and
no PostgreSQL pool, the call fails with exactly the PostgreSQL error and only
the client-build effect in the trace. -/
theorem postgres_pool_required_witness :
    ((∃ e, (runTopkEvaluationClient cEnvC9 paramsC9).1 = .error e) ∧
      (∀ tid, ClientEvent.spawnedTask tid ∉ (runTopkEvaluationClient cEnvC9 paramsC9).2)) ∧
    (∀ cfg, lookupA cEnvC9.evaluations paramsC9.evaluation_name = some cfg →
      cEnvC9.clientBuild = .ok () →
      runTopkEvaluationClient cEnvC9 paramsC9 =
        (.error (.Evaluation "PostgreSQL connection required for top-k evaluation"),
          [.builtClient])) :=
  postgres_pool_required cEnvC9 paramsC9 rfl

/-- C6: Deserializing tool parameters with all optional fields omitted fills
the serde defaults — failure thresholds 0.05 (1/20 as an exact rational),
concurrency 5, inference cache On, scoring function AverageEvaluatorScore —
and these values pass unchanged through the tool's `execute` forwarding and
the client's `TopKTaskParams` construction. -/
theorem tool_params_defaults (j : ToolParamsProvided) (cfg : ℕ) (fns : List (String × ℕ))
    (h1 : j.variant_failure_threshold = none) (h2 : j.evaluator_failure_threshold = none)
    (h3 : j.concurrency = none) (h4 : j.inference_cache = none)
    (h5 : j.scoring_function = none) :
    (deserializeToolParams j).variant_failure_threshold = 1 / 20 ∧
    (deserializeToolParams j).evaluator_failure_threshold = 1 / 20 ∧
    (deserializeToolParams j).concurrency = 5 ∧
    (deserializeToolParams j).inference_cache = .On ∧
    (deserializeToolParams j).scoring_function = .AverageEvaluatorScore ∧
    (mkTaskParams (toolExecuteParams (deserializeToolParams j)) cfg
        fns).variant_failure_threshold = 1 / 20 ∧
    (mkTaskParams (toolExecuteParams (deserializeToolParams j)) cfg
        fns).evaluator_failure_threshold = 1 / 20 ∧
    (mkTaskParams (toolExecuteParams (deserializeToolParams j)) cfg fns).concurrency = 5 ∧
    (mkTaskParams (toolExecuteParams (deserializeToolParams j)) cfg fns).inference_cache =
      .On ∧
    (mkTaskParams (toolExecuteParams (deserializeToolParams j)) cfg fns).scoring_function =
      .AverageEvaluatorScore := by
  unfold deserializeToolParams toolExecuteParams mkTaskParams
  rw [h1, h2, h3, h4, h5]
  simp [Option.getD]

/-- C6 witness: the defaults on a concrete omitted-field input. -/
theorem tool_params_defaults_witness :
    (deserializeToolParams jW).variant_failure_threshold = 1 / 20 ∧
    (deserializeToolParams jW).evaluator_failure_threshold = 1 / 20 ∧
    (deserializeToolParams jW).concurrency = 5 ∧
    (deserializeToolParams jW).inference_cache = .On ∧
    (deserializeToolParams jW).scoring_function = .AverageEvaluatorScore ∧
    (mkTaskParams (toolExecuteParams (deserializeToolParams jW)) 0
        []).variant_failure_threshold = 1 / 20 ∧
    (mkTaskParams (toolExecuteParams (deserializeToolParams jW)) 0
        []).evaluator_failure_threshold = 1 / 20 ∧
    (mkTaskParams (toolExecuteParams (deserializeToolParams jW)) 0 []).concurrency = 5 ∧
    (mkTaskParams (toolExecuteParams (deserializeToolParams jW)) 0 []).inference_cache =
      .On ∧
    (mkTaskParams (toolExecuteParams (deserializeToolParams jW)) 0 []).scoring_function =
      .AverageEvaluatorScore :=
  tool_params_defaults jW 0 [] rfl rfl rfl rfl rfl

/-- C8: `poll_topk_task` polls the task row once per 500 ms sleep with a
1-hour budget: it returns Ok with the deserialized completed payload exactly
when some in-budget poll observes state "completed" (after only non-terminal
observations) and the payload row deserializes; a "failed" observation yields
the "Top-k task failed: …" Evaluation error; and if no poll up to the budget
(7201 polls ≅ one hour of sleeps) observes a terminal state, it returns the
"Top-k evaluation timed out" Evaluation error. -/
theorem poll_topk_task_behavior (env : PollEnv) :
    (∀ out, pollTopkTask env = .ok out ↔ pollCompletedSpec env out) ∧
    (∀ j, j ≤ 7200 → (∀ t, t < j → pollNonterminal (env.stateSeq t) = true) →
      env.stateSeq j = .ok (some "failed") →
      ∃ m, pollTopkTask env = .error (.Evaluation ("Top-k task failed: " ++ m))) ∧
    ((∀ t, t ≤ 7200 → pollNonterminal (env.stateSeq t) = true) →
      pollTopkTask env = .error (.Evaluation "Top-k evaluation timed out")) := by
  refine ⟨?_, ?_, pollTopkTask_timeout env⟩
  · intro out
    constructor
    · intro h
      unfold pollTopkTask at h
      cases hg : pollGo env pollFuel 0 with
      | none =>
        rw [hg] at h
        exact absurd h (by simp)
      | some x =>
        rw [hg] at h
        simp only [Option.getD_some] at h
        subst h
        obtain ⟨j, _, hsl, hint, hcomp, js, hpay, hdes⟩ :=
          pollGo_ok_exists env pollFuel 0 out hg
        refine ⟨j, ?_, fun t ht => hint t (Nat.zero_le t) ht, hcomp, js, hpay, hdes⟩
        unfold pollSleepMs pollTimeoutMs at hsl
        omega
    · intro hspec
      obtain ⟨j, hj, hnt, hcomp, js, hpay, hdes⟩ := hspec
      exact pollTopkTask_completed env j out hj hnt hcomp js hpay hdes
  · intro j hj hnt hst
    exact ⟨failedErrMsg env, pollTopkTask_failed env j hj hnt hst⟩

/-- C8 witness: a row that is "completed" at the first poll with a
deserializable payload yields the deserialized output. -/
theorem poll_topk_task_behavior_witness :
    pollTopkTask pollEnvC8 = .ok emptyTopKOutput :=
  ((poll_topk_task_behavior pollEnvC8).1 emptyTopKOutput).mpr
    ⟨0, by omega, fun t ht => absurd ht (Nat.not_lt_zero t), rfl, 0, rfl, rfl⟩

/-- C10: When the row reaches state "failed", `poll_topk_task` returns an
Evaluation error whose message is "Top-k task failed: " followed by the
recovered message, and any secondary failure of the `failed_error` query — a
query error, a missing row, or a NULL column — is swallowed: the message
falls back to "Unknown error" instead of propagating the query error. -/
theorem failed_task_error_message (env : PollEnv) (j : ℕ)
    (hj : j ≤ 7200) (hnt : ∀ t, t < j → pollNonterminal (env.stateSeq t) = true)
    (hst : env.stateSeq j = .ok (some "failed")) :
    pollTopkTask env = .error (.Evaluation ("Top-k task failed: " ++ failedErrMsg env)) ∧
    (((∃ e, env.failedErr = .error e) ∨ env.failedErr = .ok none ∨
      env.failedErr = .ok (some none)) → failedErrMsg env = "Unknown error") := by
  refine ⟨pollTopkTask_failed env j hj hnt hst, ?_⟩
  intro hsec
  unfold failedErrMsg
  rcases hsec with ⟨e, he⟩ | he | he <;> rw [he]

/-- C10 witness: a failing `failed_error` query is swallowed and the message
falls back to "Unknown error". -/
theorem failed_task_error_message_witness :
    pollTopkTask pollEnvC10 = .error (.Evaluation "Top-k task failed: Unknown error") := by
  have h := failed_task_error_message pollEnvC10 0 (by omega)
    (fun t ht => absurd ht (Nat.not_lt_zero t)) rfl
  have h2 := h.2 (Or.inl ⟨"connection reset", rfl⟩)
  rw [h.1, h2]
  rfl
